import Mathlib

/-!
# notion-relay: the webhook handler of `src/index.js`

A shallow embedding of the `fetch` handler of the worker and of the pieces it is
made of: identifier normalisation, schema reconciliation, value projection and
row submission.

Modelling conventions.

* A JavaScript object is the list of its own properties in enumeration order.
  An assignment `object[key] = value` on an object literal goes through
  `assignProp`, which knows the setter `__proto__` of `Object.prototype`; a read
  of the schema goes through `schemaGet`, which walks the prototype chain.
* A JavaScript string is a `String`; where the code counts or cuts (the
  `substring(0, 2000)` of the text fragment) the string is taken as its UTF-16
  code units.  The characters the code inspects elsewhere (hex digits, decimal
  digits, `-`) are single code units.
* A JavaScript number that is not `NaN` is kept as the shortest decimal numeral
  that denotes it, `digits * 10 ^ exp` with a sign, or as an infinity.  The
  conversion of a numeral to the nearest binary64 value belongs to the engine
  and is a field of `Engine`; `roundToBinary64` is that conversion.
* The messages of the errors the engine throws are fields of `Engine` too.
* The request body is a JSON object (the payload of the data model); the
  remote system answers a schema read with the document of its contract,
  column name to an object `{type}`.
* Remote calls are recorded in a trace; the remote system is any function of
  the calls issued so far.  A call that throws (network failure, a body that
  cannot be read) carries the message of the error.
-/

namespace NotionRelay

/-! ## JavaScript values -/

/-- A JavaScript number other than `NaN`: a signed decimal numeral or an infinity. -/
inductive JSNum where
  | fin (neg : Bool) (digits : Nat) (exp : Int)
  | inf (neg : Bool)
  deriving DecidableEq, Repr

/-- A value produced by `JSON.parse`. -/
inductive JValue where
  | null
  | bool (b : Bool)
  | num (n : JSNum)
  | str (s : String)
  | arr (items : List JValue)
  | obj (members : List (String × JValue))
  deriving Repr

/-- The number `+0`. -/
def JSNum.zero : JSNum := .fin false 0 0

/-- The number `1`. -/
def JSNum.one : JSNum := .fin false 1 0

/-- Whether a number is `+0` or `-0`. -/
def JSNum.isZero : JSNum → Bool
  | .fin _ digits _ => digits == 0
  | .inf _ => false

/-- The test `typeof value === 'number'`. -/
def JValue.isNumber : JValue → Bool
  | .num _ => true
  | _ => false

/-- The test `typeof value === 'boolean'`. -/
def JValue.isBoolean : JValue → Bool
  | .bool _ => true
  | _ => false

/-- The test `typeof value === 'string'`. -/
def JValue.isString : JValue → Bool
  | .str _ => true
  | _ => false

/-- JavaScript truthiness (`ToBoolean`), as used by `||`, `!` and `Boolean(value)`. -/
def truthy : JValue → Bool
  | .null => false
  | .bool b => b
  | .num n => !n.isZero
  | .str s => !s.data.isEmpty
  | .arr _ => true
  | .obj _ => true

/-- The parts of the JavaScript engine and of the runtime the handler relies
on and the repository does not contain: the conversion of a signed decimal
numeral `digits * 10 ^ exp` to a Number value, and the messages of the errors
thrown when an object has no primitive value, when `new Response` is given a
status outside 200 to 599, and when it is given a body with a null body status. -/
structure Engine where
  roundDecimal : Bool → Nat → Int → JSNum
  notPrimitiveMessage : String
  statusRangeMessage : String
  nullBodyStatusMessage : String

/-! ## Number to string and string to number -/

/-- The decimal digits of `m` without trailing zeros. -/
def significantDigits (m : Nat) : List Char :=
  ((Nat.repr m).data.reverse.dropWhile (fun c => c == '0')).reverse

/-- The method `Number.prototype.toString` in radix 10 for a positive finite number
`digits * 10 ^ exp` (ECMAScript `Number::toString`, steps 5 to 10). -/
def positiveToString (digits : Nat) (exp : Int) : String :=
  let sig := significantDigits digits
  let k : Int := sig.length
  let n : Int := (Nat.repr digits).data.length + exp
  if k ≤ n ∧ n ≤ 21 then
    ⟨sig ++ List.replicate (n - k).toNat '0'⟩
  else if 0 < n ∧ n ≤ 21 then
    ⟨sig.take n.toNat ++ '.' :: sig.drop n.toNat⟩
  else if -6 < n ∧ n ≤ 0 then
    ⟨'0' :: '.' :: (List.replicate (-n).toNat '0' ++ sig)⟩
  else
    let e := n - 1
    let tail := (if e < 0 then "e-" else "e+") ++ Nat.repr e.natAbs
    if sig.length = 1 then ⟨sig⟩ ++ tail
    else ⟨sig.take 1 ++ '.' :: sig.drop 1⟩ ++ tail

/-- The result of `String(n)` for a number `n`. -/
def numberToString : JSNum → String
  | .inf false => "Infinity"
  | .inf true => "-Infinity"
  | .fin neg digits exp =>
    if digits = 0 then "0"
    else (if neg then "-" else "") ++ positiveToString digits exp

mutual
/-- The result of `String(value)`, `none` when it throws a `TypeError`: an
object parsed from JSON with an own member `toString` has no callable
`toString` and its `valueOf` returns the object, so it has no primitive value. -/
def jsToString : JValue → Option String
  | .null => some "null"
  | .bool b => some (if b then "true" else "false")
  | .num n => some (numberToString n)
  | .str s => some s
  | .arr items => joinItems items
  | .obj members =>
    if (members.map Prod.fst).contains "toString" then none else some "[object Object]"
/-- The result of `Array.prototype.join` with the separator `,`: `null` elements
give the empty string, the others are converted with `String`. -/
def joinItems : List JValue → Option String
  | [] => some ""
  | [.null] => some ""
  | [x] => jsToString x
  | .null :: y :: rest => (joinItems (y :: rest)).map (fun t => "," ++ t)
  | x :: y :: rest =>
    match jsToString x with
    | none => none
    | some s => (joinItems (y :: rest)).map (fun t => s ++ "," ++ t)
end

/-- White space and line terminators removed by `StringToNumber` at both ends. -/
def isStrWhiteSpace (c : Char) : Bool :=
  let n := c.toNat
  n == 9 || n == 10 || n == 11 || n == 12 || n == 13 || n == 32 || n == 0xA0 ||
  n == 0x1680 || (0x2000 ≤ n && n ≤ 0x200A) || n == 0x2028 || n == 0x2029 ||
  n == 0x202F || n == 0x205F || n == 0x3000 || n == 0xFEFF

/-- The value of a list of digit characters in the given radix. -/
def digitsValue (radix : Nat) (cs : List Char) : Nat :=
  cs.foldl (fun acc c =>
    let v := if c.isDigit then c.toNat - 48
      else if 'a' ≤ c ∧ c ≤ 'f' then c.toNat - 87 else c.toNat - 55
    acc * radix + v) 0

/-- Whether a character is a digit of the given radix (2, 8 or 16). -/
def isRadixDigit (radix : Nat) (c : Char) : Bool :=
  if radix = 2 then c == '0' || c == '1'
  else if radix = 8 then decide ('0' ≤ c ∧ c ≤ '7')
  else c.isDigit || decide ('a' ≤ c ∧ c ≤ 'f') || decide ('A' ≤ c ∧ c ≤ 'F')

/-- An `ExponentPart` filling the rest of the literal: nothing, or `e`/`E`, an
optional sign and at least one digit. -/
def parseExponent : List Char → Option Int
  | [] => some 0
  | c :: rest =>
    if c == 'e' || c == 'E' then
      let (neg, ds) := match rest with
        | '+' :: ds => (false, ds)
        | '-' :: ds => (true, ds)
        | ds => (false, ds)
      if !ds.isEmpty && ds.all Char.isDigit then
        some (if neg then -(digitsValue 10 ds : Int) else digitsValue 10 ds)
      else none
    else none

/-- An unsigned `StrUnsignedDecimalLiteral`: `Infinity`, `digits[.digits][exp]`
or `.digits[exp]`; the numeral is converted by the engine. -/
def parseUnsignedDecimal (eng : Engine) (neg : Bool) (cs : List Char) : Option JSNum :=
  if cs = "Infinity".data then some (.inf neg)
  else
    let ip := cs.takeWhile Char.isDigit
    match cs.dropWhile Char.isDigit with
    | '.' :: r =>
      let fp := r.takeWhile Char.isDigit
      if ip.isEmpty && fp.isEmpty then none
      else (parseExponent (r.dropWhile Char.isDigit)).map
        (fun e => eng.roundDecimal neg (digitsValue 10 (ip ++ fp)) (e - fp.length))
    | r =>
      if ip.isEmpty then none
      else (parseExponent r).map (fun e => eng.roundDecimal neg (digitsValue 10 ip) e)

/-- A `NonDecimalIntegerLiteral` body: at least one digit of the radix. -/
def parseRadix (eng : Engine) (radix : Nat) (cs : List Char) : Option JSNum :=
  if !cs.isEmpty && cs.all (isRadixDigit radix) then
    some (eng.roundDecimal false (digitsValue radix cs) 0)
  else none

/-- The abstract operation `StringToNumber`: `none` stands for `NaN`. -/
def stringToNumber (eng : Engine) (s : String) : Option JSNum :=
  let trimmed := ((s.data.dropWhile isStrWhiteSpace).reverse.dropWhile isStrWhiteSpace).reverse
  match trimmed with
  | [] => some JSNum.zero
  | '0' :: 'x' :: cs => parseRadix eng 16 cs
  | '0' :: 'X' :: cs => parseRadix eng 16 cs
  | '0' :: 'o' :: cs => parseRadix eng 8 cs
  | '0' :: 'O' :: cs => parseRadix eng 8 cs
  | '0' :: 'b' :: cs => parseRadix eng 2 cs
  | '0' :: 'B' :: cs => parseRadix eng 2 cs
  | '+' :: cs => parseUnsignedDecimal eng false cs
  | '-' :: cs => parseUnsignedDecimal eng true cs
  | cs => parseUnsignedDecimal eng false cs

/-- The abstract operation `ToNumber` on a parsed JSON value, which is what
`Number(value)` returns and what `isNaN(value)` tests: the outer `none` is a
thrown `TypeError` (the value has no primitive value), the inner `none` is `NaN`. -/
def toNumber (eng : Engine) : JValue → Option (Option JSNum)
  | .null => some (some JSNum.zero)
  | .bool b => some (some (if b then JSNum.one else JSNum.zero))
  | .num n => some (some n)
  | .str s => some (stringToNumber eng s)
  | .arr items => (joinItems items).map (stringToNumber eng)
  | .obj members =>
    if (members.map Prod.fst).contains "toString" then none else some none

/-- The global function `isNaN(value)`; `none` when the conversion throws. -/
def jsIsNaN (eng : Engine) (value : JValue) : Option Bool :=
  (toNumber eng value).map Option.isNone

/-! ## Rounding to binary64 -/

/-- The fraction `d * 10 ^ e`. -/
def decimalFraction (d : Nat) (e : Int) : Nat × Nat :=
  if 0 ≤ e then (d * 10 ^ e.toNat, 1) else (d, 10 ^ (-e).toNat)

/-- The integer part of the binary logarithm of `num / den`, both positive. -/
def floorLog2 (num den : Nat) : Int :=
  let l : Int := ((Nat.toDigits 2 num).length : Int) - ((Nat.toDigits 2 den).length : Int)
  if 0 ≤ l then (if den * 2 ^ l.toNat ≤ num then l else l - 1)
  else (if den ≤ num * 2 ^ (-l).toNat then l else l - 1)

/-- The binary64 value nearest to the positive fraction `num / den`, ties to
even: the pair `(m, e)` stands for `m * 2 ^ e`, `none` for an overflow. -/
def nearestBinary64 (num den : Nat) : Option (Nat × Int) :=
  let e : Int := max (floorLog2 num den - 52) (-1074)
  let n := if 0 ≤ e then num else num * 2 ^ (-e).toNat
  let d := if 0 ≤ e then den * 2 ^ e.toNat else den
  let q := n / d
  let r := n % d
  let m := if d < 2 * r ∨ (2 * r = d ∧ q % 2 = 1) then q + 1 else q
  if m = 2 ^ 53 then (if 971 < e + 1 then none else some (2 ^ 52, e + 1))
  else if 971 < e then none else some (m, e)

/-- The decimal exponent `n` of the positive fraction `num / den`:
`10 ^ (n - 1) ≤ num / den < 10 ^ n`. -/
def decimalExponent (num den : Nat) : Int :=
  if den ≤ num then ((Nat.repr (num / den)).length : Int)
  else 1 - ((Nat.repr (den / num)).length : Int)

/-- The candidate with `k` digits for the shortest decimal of the binary64
value `m * 2 ^ e`, if one rounds back to it. -/
def shortestCandidate (m : Nat) (e : Int) (k : Nat) : Option (Nat × Int) :=
  let num := if 0 ≤ e then m * 2 ^ e.toNat else m
  let den := if 0 ≤ e then 1 else 2 ^ (-e).toNat
  let n := decimalExponent num den
  let p : Int := k - n
  let a := if 0 ≤ p then num * 10 ^ p.toNat else num
  let b := if 0 ≤ p then den else den * 10 ^ (-p).toNat
  let lo := a / b
  let r := a % b
  let back := fun (s : Nat) =>
    let f := decimalFraction s (n - k)
    decide (nearestBinary64 f.1 f.2 = some (m, e))
  let okLo := back lo
  let okHi := back (lo + 1)
  if okLo && okHi then
    (if 2 * r < b ∨ (2 * r = b ∧ lo % 2 = 0) then some (lo, n - k) else some (lo + 1, n - k))
  else if okLo then some (lo, n - k)
  else if okHi then some (lo + 1, n - k)
  else none

/-- The shortest decimal numeral that rounds to the binary64 value `m * 2 ^ e`. -/
def shortestDecimal (m : Nat) (e : Int) : Nat × Int :=
  ((List.range 17).findSome? (fun i => shortestCandidate m e (i + 1))).getD (0, 0)

/-- The Number value of the decimal numeral `d * 10 ^ e` with the given sign:
the nearest binary64 value, kept as its shortest decimal numeral. -/
def roundToBinary64 (neg : Bool) (d : Nat) (e : Int) : JSNum :=
  if d = 0 then .fin neg 0 0
  else
    let f := decimalFraction d e
    match nearestBinary64 f.1 f.2 with
    | none => .inf neg
    | some (m, e2) =>
      if m = 0 then .fin neg 0 0
      else
        let s := shortestDecimal m e2
        .fin neg s.1 s.2

/-- An engine for worked examples: binary64 rounding and the messages of V8
and of the workerd runtime. -/
def referenceEngine : Engine where
  roundDecimal := roundToBinary64
  notPrimitiveMessage := "Cannot convert object to primitive value"
  statusRangeMessage :=
    "Responses may only be constructed with status codes in the range 200 to 599, inclusive."
  nullBodyStatusMessage :=
    "Response with null body status (101, 204, 205, or 304) cannot have a body."

/-! ## Objects -/

/-- The definition of the own property `key` of an object: an existing
property keeps its place, a new one goes last (the enumeration order of names
that are not array indices). -/
def setProp {α : Type} : List (String × α) → String → α → List (String × α)
  | [], key, value => [(key, value)]
  | (k, v) :: rest, key, value =>
    if k = key then (key, value) :: rest else (k, v) :: setProp rest key value

/-- The assignment `object[key] = value` of an object value to an object that
started as the literal `{}`, as a list of own properties: for the key
`__proto__` the setter inherited from `Object.prototype` replaces the prototype
and no own property is created; any other key is defined as an own property. -/
def assignProp {α : Type} (object : List (String × α)) (key : String) (value : α) :
    List (String × α) :=
  if key = "__proto__" then object else setProp object key value

/-- The own property `key` of an object; `none` when there is none. -/
def getProp {α : Type} : List (String × α) → String → Option α
  | [], _ => none
  | (k, v) :: rest, key => if k = key then some v else getProp rest key

/-- The names of the own properties, `Object.keys(object)`. -/
def objectKeys {α : Type} (object : List (String × α)) : List String :=
  object.map Prod.fst

/-- The members of `Object.prototype` that are methods. -/
def objectPrototypeMethods : List String :=
  ["constructor", "__defineGetter__", "__defineSetter__", "hasOwnProperty",
    "__lookupGetter__", "__lookupSetter__", "isPrototypeOf", "propertyIsEnumerable",
    "toString", "valueOf", "toLocaleString"]

/-- The UTF-16 code units of a character. -/
def codeUnits (c : Char) : List Nat :=
  if c.toNat < 0x10000 then [c.toNat]
  else [0xD800 + (c.toNat - 0x10000) / 0x400, 0xDC00 + (c.toNat - 0x10000) % 0x400]

/-- The UTF-16 code units of a string, which are what `length` counts and
`substring` cuts. -/
def toCodeUnits (s : String) : List Nat :=
  s.data.foldr (fun c acc => codeUnits c ++ acc) []

/-! ## Regular expressions of the handler -/

/-- One position of a regular expression: the class `\d` or a literal character. -/
inductive Atom where
  | digit
  | lit (c : Char)

/-- Whether a character is matched by an atom. -/
def Atom.accepts : Atom → Char → Bool
  | .digit, c => decide ('0' ≤ c ∧ c ≤ '9')
  | .lit a, c => a == c

/-- Whether a sequence of atoms anchored with `^` matches at the start of the input. -/
def matchesAtStart : List Atom → List Char → Bool
  | [], _ => true
  | _ :: _, [] => false
  | a :: as, c :: cs => a.accepts c && matchesAtStart as cs

/-- The pattern `/^\d{4}-\d{2}-\d{2}/`. -/
def datePattern : List Atom :=
  [.digit, .digit, .digit, .digit, .lit '-', .digit, .digit, .lit '-', .digit, .digit]

/-- The test `value.match(/^\d{4}-\d{2}-\d{2}/)` for a string. -/
def matchesDate (s : String) : Bool := matchesAtStart datePattern s.data

/-- Whether a character is kept by `replace(/[^a-f0-9]/gi, '')`: with the flag `i`
the character is compared after case conversion. -/
def keptByHexFilter (c : Char) : Bool :=
  let u := c.toUpper
  decide ('A' ≤ u ∧ u ≤ 'F') || decide ('0' ≤ u ∧ u ≤ '9')

/-- The call `s.substring(start, end)` for `start ≤ end`. -/
def substring (s : String) (start stop : Nat) : String :=
  ⟨(s.data.drop start).take (stop - start)⟩

/-- The call `s.substring(start)`. -/
def substringFrom (s : String) (start : Nat) : String :=
  ⟨s.data.drop start⟩

/-! ## Identifier normalisation (lines 27 to 33) -/

/-- The database identifier used for all remote calls, computed from
`env.NOTION_DB_ID`. -/
def normalizeDbId (raw : String) : String :=
  let dbId : String := ⟨raw.data.filter keptByHexFilter⟩
  if dbId.length = 32 then
    substring dbId 0 8 ++ "-" ++ substring dbId 8 12 ++ "-" ++ substring dbId 12 16 ++ "-"
      ++ substring dbId 16 20 ++ "-" ++ substringFrom dbId 20
  else raw

/-- Whether a character is in `[0-9a-fA-F]`. -/
def isHexChar (c : Char) : Bool :=
  decide ('0' ≤ c ∧ c ≤ '9') || decide ('a' ≤ c ∧ c ≤ 'f') || decide ('A' ≤ c ∧ c ≤ 'F')

/-- The string `s` with every character outside `[0-9a-fA-F]` removed. -/
def hexOnly (s : String) : String := ⟨s.data.filter isHexChar⟩

/-- The characters of `s` from position `i` up to, not including, position `j`. -/
def slice (s : String) (i j : Nat) : String := ⟨(s.data.take j).drop i⟩

/-- The reference definition of identifier normalisation, following the
specification: strip the non-hex characters, and if exactly 32 are left join
the groups 8-4-4-4-12 with hyphens, otherwise return the input. -/
def normalizeReference (s : String) : String :=
  let h := hexOnly s
  if h.data.length = 32 then
    slice h 0 8 ++ "-" ++ slice h 8 12 ++ "-" ++ slice h 12 16 ++ "-" ++ slice h 16 20
      ++ "-" ++ slice h 20 32
  else s

/-- The shape `XXXXXXXX-XXXX-XXXX-XXXX-XXXXXXXXXXXX`: 36 characters, hyphens at
positions 8, 13, 18 and 23, hex digits elsewhere. -/
def isDashedForm (s : String) : Bool :=
  let cs := s.data
  cs.length == 36 &&
  (cs.take 8).all isHexChar && (cs.drop 8).take 1 == ['-'] &&
  ((cs.drop 9).take 4).all isHexChar && (cs.drop 13).take 1 == ['-'] &&
  ((cs.drop 14).take 4).all isHexChar && (cs.drop 18).take 1 == ['-'] &&
  ((cs.drop 19).take 4).all isHexChar && (cs.drop 23).take 1 == ['-'] &&
  (cs.drop 24).all isHexChar

/-! ## Data of the handler -/

/-- The parsed request body: the own properties of the payload object. -/
abbrev Payload := List (String × JValue)

/-- The own properties of the member `properties` of a database document:
column name to the string found under `type` of its descriptor `{type}`. -/
abbrev Schema := List (String × String)

/-- The object `dbSchema.properties` during a request: its own properties and,
once `Object.assign` has assigned a column named `__proto__` that was no own
property, the type of the descriptor that became its prototype (`none` while
the prototype is `Object.prototype`). -/
structure SchemaObject where
  own : Schema
  swapped : Option String

/-- What the read `dbSchema.properties[key]` gives the mapping loop: a
descriptor with its `type`, another truthy value (its `type` is `undefined`),
or a falsy value. -/
inductive SchemaEntry where
  | column (type : String)
  | other
  | undefined
  deriving DecidableEq, Repr

/-- The property configurations the handler puts in a schema patch. -/
inductive ColumnSpec where
  | number
  | checkbox
  | date
  | rich_text
  deriving DecidableEq, Repr

/-- The property values the handler puts in a page: `title` holds
`[{text: {content}}]`, `rich_text` holds `[{type: 'text', text: {content}}]`
with the content as UTF-16 code units, `date` holds `{start}`. -/
inductive Fragment where
  | title (content : JValue)
  | rich_text (content : List Nat)
  | number (n : JSNum)
  | checkbox (b : Bool)
  | date (start : String)

/-- The own properties of the member `properties` of the body of a page creation. -/
abbrev RowProperties := List (String × Fragment)

/-- The environment bindings the handler reads; `none` is `undefined`. -/
structure Env where
  NOTION_TOKEN : Option String
  NOTION_DB_ID : Option String

/-- The incoming request: its method and the outcome of `request.json()`, the
payload or the message of the error thrown. -/
structure Request where
  method : String
  json : Except String Payload

/-- The response of the handler. -/
structure Response where
  body : String
  status : Nat
  deriving DecidableEq, Repr

/-- A response of the remote system: `status`, the outcome of `text()` and the
outcome of reading the body as a database document (`json()` followed by
`.properties`), the schema or the message of the error thrown. -/
structure RemoteResponse where
  status : Nat
  text : String
  schema : Except String Schema

/-- The property `ok` of a response: the status is in the range 200 to 299. -/
def RemoteResponse.ok (r : RemoteResponse) : Bool :=
  decide (200 ≤ r.status ∧ r.status ≤ 299)

/-- The calls of the handler to the remote system, with the parts of each
request that vary: the identifier in the URL, the bearer token and the own
properties of the member `properties` of the body. -/
inductive RemoteCall where
  | getDatabase (dbId token : String)
  | patchDatabase (dbId token : String) (properties : List (String × ColumnSpec))
  | createPage (token databaseId : String) (properties : RowProperties)

/-- The remote system: given the calls issued so far, the last one being the
current call, the response to it or the message of the error `fetch` rejects with. -/
abbrev Remote := List RemoteCall → Except String RemoteResponse

/-- Whether a call is a schema patch. -/
def RemoteCall.isPatch : RemoteCall → Bool
  | .patchDatabase _ _ _ => true
  | _ => false

/-- Whether a call is a schema read. -/
def RemoteCall.isGet : RemoteCall → Bool
  | .getDatabase _ _ => true
  | _ => false

/-- Whether a call is a page creation. -/
def RemoteCall.isCreate : RemoteCall → Bool
  | .createPage _ _ _ => true
  | _ => false

/-- The expression `new Response(body, { status })` inside the `try` of the
handler, for a body that is a string: the constructor throws a `RangeError`
for a status outside 200 to 599 and a `TypeError` for the null body statuses
204, 205 and 304, and the `catch` of the handler answers 500 with the message. -/
def makeResponse (eng : Engine) (body : String) (status : Nat) : Response :=
  if status < 200 ∨ 599 < status then ⟨"Worker error: " ++ eng.statusRangeMessage, 500⟩
  else if status = 204 ∨ status = 205 ∨ status = 304 then
    ⟨"Worker error: " ++ eng.nullBodyStatusMessage, 500⟩
  else ⟨body, status⟩

/-! ## Schema reconciliation (lines 56 to 125) -/

/-- The name of the first column whose type is `title`
(`Object.entries(...).find(([key, prop]) => prop.type === 'title')`). -/
def findTitleProperty (schema : Schema) : Option String :=
  (schema.find? (fun entry => entry.2 == "title")).map Prod.fst

/-- The payload keys that are no own property of the schema, `callerName` apart. -/
def missingProperties (schema : Schema) (payload : Payload) : List String :=
  (objectKeys payload).filter
    (fun prop => !(objectKeys schema).contains prop && prop != "callerName")

/-- The property configuration chosen for a missing key from the type of its value. -/
def inferColumn : Option JValue → ColumnSpec
  | some (.num _) => .number
  | some (.bool _) => .checkbox
  | some (.str s) => if matchesDate s then .date else .rich_text
  | _ => .rich_text

/-- The own properties of the object `updateProperties` when it is sent as the
member `properties` of the patch. -/
def updateProperties (payload : Payload) (missing : List String) : List (String × ColumnSpec) :=
  missing.foldl
    (fun acc propName => assignProp acc propName (inferColumn (getProp payload propName))) []

/-- The call `Object.assign(dbSchema.properties, refreshedSchema.properties)`:
each own property of the source is assigned in turn; the key `__proto__`, when
it is no own property of the target, reaches the setter of `Object.prototype`
and the descriptor becomes the prototype of the target. -/
def schemaAssign (target : SchemaObject) (source : Schema) : SchemaObject :=
  source.foldl
    (fun acc entry =>
      if entry.1 = "__proto__" ∧ (getProp acc.own "__proto__").isNone then
        { acc with swapped := some entry.2 }
      else { acc with own := setProp acc.own entry.1 entry.2 })
    target

/-- The read `dbSchema.properties[key]`: an own property first, then the
prototype chain. The accessor `__proto__` gives the prototype itself; a
descriptor installed as prototype has the member `type`, a string; the methods
of `Object.prototype` are functions. -/
def schemaGet (schema : SchemaObject) (key : String) : SchemaEntry :=
  match getProp schema.own key with
  | some type => .column type
  | none =>
    if key = "__proto__" then
      match schema.swapped with
      | some type => .column type
      | none => .other
    else if key = "type" ∧ schema.swapped.isSome then
      (if schema.swapped = some "" then .undefined else .other)
    else if objectPrototypeMethods.contains key then .other
    else .undefined

/-- The outcome of reconciliation: the calls issued so far and either the
schema to project with or the message of an error thrown on the way. -/
structure Reconciled where
  trace : List RemoteCall
  result : Except String SchemaObject

/-- Lines 65 to 125: patch the missing columns and read the schema again. The
status of the patch response only selects what is logged. -/
def reconcile (remote : Remote) (dbId token : String) (schema : Schema) (payload : Payload)
    (trace : List RemoteCall) : Reconciled :=
  let missing := missingProperties schema payload
  if missing.length > 0 then
    let trace1 := trace ++ [.patchDatabase dbId token (updateProperties payload missing)]
    match remote trace1 with
    | .error msg => ⟨trace1, .error msg⟩
    | .ok _updateRes =>
      let trace2 := trace1 ++ [.getDatabase dbId token]
      match remote trace2 with
      | .error msg => ⟨trace2, .error msg⟩
      | .ok refreshedDbRes =>
        if refreshedDbRes.ok then
          match refreshedDbRes.schema with
          | .error msg => ⟨trace2, .error msg⟩
          | .ok refreshed => ⟨trace2, .ok (schemaAssign ⟨schema, none⟩ refreshed)⟩
        else ⟨trace2, .ok ⟨schema, none⟩⟩
  else ⟨trace, .ok ⟨schema, none⟩⟩

/-! ## Value projection and the outgoing row (lines 127 to 208) -/

/-- The text fragment `[{type: 'text', text: {content: String(value).substring(0, 2000)}}]`;
`none` when `String(value)` throws. -/
def textFragment (value : JValue) : Option Fragment :=
  (jsToString value).map (fun s => .rich_text ((toCodeUnits s).take 2000))

/-- The content of the title: `payload.callerName || 'Request from ' + timestamp`. -/
def titleContent (payload : Payload) (now : String) : JValue :=
  match getProp payload "callerName" with
  | some v => if truthy v then v else .str ("Request from " ++ now)
  | none => .str ("Request from " ++ now)

/-- The `switch (dbProperty.type)` inside the `try` of the mapping loop: the
properties of the row after the entry `key`, `value` has been mapped onto a
property whose `type` is `type` (`none` for `undefined`); the result is `none`
when the conversion of the value throws. -/
def switchOnType (eng : Engine) (type : Option String) (properties : RowProperties)
    (key : String) (value : JValue) : Option RowProperties :=
  if type = some "rich_text" then (textFragment value).map (assignProp properties key)
  else if type = some "number" then
    match toNumber eng value with
    | none => none
    | some none => some properties
    | some (some n) => some (assignProp properties key (.number n))
  else if type = some "checkbox" then
    some (assignProp properties key (.checkbox (truthy value)))
  else if type = some "date" then
    match value with
    | .str s => if matchesDate s then some (assignProp properties key (.date s))
      else some properties
    | _ => some properties
  else if type = some "select" ∨ type = some "multi_select" then
    (textFragment value).map (assignProp properties key)
  else (textFragment value).map (assignProp properties key)

/-- The `try`/`catch` around the switch: when the switch throws, the fallback
assigns the text fragment, and throws in turn when `String(value)` does. -/
def projectValue (eng : Engine) (type : Option String) (properties : RowProperties)
    (key : String) (value : JValue) : Option RowProperties :=
  match switchOnType eng type properties key value with
  | some result => some result
  | none => (textFragment value).map (assignProp properties key)

/-- One turn of `Object.entries(payload).forEach`; `none` when it throws. -/
def mapField (eng : Engine) (schema : SchemaObject) (properties : RowProperties)
    (entry : String × JValue) : Option RowProperties :=
  if entry.1 = "callerName" then some properties
  else
    match schemaGet schema entry.1 with
    | .undefined => some properties
    | .other => projectValue eng none properties entry.1 entry.2
    | .column type => projectValue eng (some type) properties entry.1 entry.2

/-- The loop `Object.entries(payload).forEach`: it stops at the first turn that throws. -/
def mapFields (eng : Engine) (schema : SchemaObject) :
    RowProperties → List (String × JValue) → Option RowProperties
  | properties, [] => some properties
  | properties, entry :: rest =>
    match mapField eng schema properties entry with
    | none => none
    | some next => mapFields eng schema next rest

/-- The own properties of the member `properties` of `notionPayload` when it is
sent; `none` when the mapping loop throws. -/
def buildProperties (eng : Engine) (schema : SchemaObject) (titlePropertyName : String)
    (payload : Payload) (now : String) : Option RowProperties :=
  mapFields eng schema (assignProp [] titlePropertyName (.title (titleContent payload now)))
    payload

/-! ## The handler -/

/-- The outcome of a request: the response and the remote calls in the order
they were issued. -/
structure Outcome where
  response : Response
  trace : List RemoteCall

/-- Whether an environment binding passes the test `!env.NAME`: it is defined
and not the empty string. -/
def isSet : Option String → Bool
  | some s => !s.data.isEmpty
  | none => false

/-- Lines 127 to 232: build the row, create the page, answer. -/
def submitRow (eng : Engine) (remote : Remote) (dbId token : String) (schema : SchemaObject)
    (titlePropertyName : String) (payload : Payload) (now : String)
    (trace : List RemoteCall) : Outcome :=
  match buildProperties eng schema titlePropertyName payload now with
  | none => ⟨⟨"Worker error: " ++ eng.notPrimitiveMessage, 500⟩, trace⟩
  | some properties =>
    let trace1 := trace ++ [.createPage token dbId properties]
    match remote trace1 with
    | .error msg => ⟨⟨"Worker error: " ++ msg, 500⟩, trace1⟩
    | .ok notionRes =>
      if !notionRes.ok then
        ⟨makeResponse eng
          ("Notion API error (" ++ toString notionRes.status ++ "): " ++ notionRes.text)
          notionRes.status, trace1⟩
      else ⟨⟨"Success! Notion status " ++ toString notionRes.status, 200⟩, trace1⟩

/-- The handler `fetch(request, env)`; `now` is the reading
`new Date().toISOString()` of the clock. -/
def fetchHandler (eng : Engine) (remote : Remote) (now : String) (request : Request)
    (env : Env) : Outcome :=
  if request.method ≠ "POST" then ⟨⟨"Method Not Allowed", 405⟩, []⟩
  else if !isSet env.NOTION_TOKEN then
    ⟨⟨"Missing NOTION_TOKEN environment variable", 400⟩, []⟩
  else if !isSet env.NOTION_DB_ID then
    ⟨⟨"Missing NOTION_DB_ID environment variable", 400⟩, []⟩
  else
    match request.json with
    | .error msg => ⟨⟨"Invalid JSON in request body: " ++ msg, 400⟩, []⟩
    | .ok payload =>
      let token := env.NOTION_TOKEN.getD ""
      let dbId := normalizeDbId (env.NOTION_DB_ID.getD "")
      let trace1 := [RemoteCall.getDatabase dbId token]
      match remote trace1 with
      | .error msg => ⟨⟨"Worker error: " ++ msg, 500⟩, trace1⟩
      | .ok dbSchemaRes =>
        if !dbSchemaRes.ok then
          ⟨makeResponse eng
            ("Database access error (" ++ toString dbSchemaRes.status ++ "): "
              ++ dbSchemaRes.text) dbSchemaRes.status, trace1⟩
        else
          match dbSchemaRes.schema with
          | .error msg => ⟨⟨"Worker error: " ++ msg, 500⟩, trace1⟩
          | .ok dbSchema =>
            match findTitleProperty dbSchema with
            | none => ⟨⟨"No title property found in database schema", 400⟩, trace1⟩
            | some titlePropertyName =>
              let reconciled := reconcile remote dbId token dbSchema payload trace1
              match reconciled.result with
              | .error msg => ⟨⟨"Worker error: " ++ msg, 500⟩, reconciled.trace⟩
              | .ok schema =>
                submitRow eng remote dbId token schema titlePropertyName payload now
                  reconciled.trace

/-- A remote system that answers the calls, in the order they are issued, with
the responses of a script. -/
def scriptedRemote (script : List (Except String RemoteResponse)) : Remote :=
  fun trace => (script.get? (trace.length - 1)).getD (.error "no scripted response")

/-- Whether `String(value)` returns. -/
def convertible (value : JValue) : Bool := (jsToString value).isSome

/-! ## Reference definition of the text projection -/

/-- The first `n` elements of a list. -/
def firstUnits : Nat → List Nat → List Nat
  | 0, _ => []
  | _ + 1, [] => []
  | n + 1, u :: us => u :: firstUnits n us

/-- The text projection of the specification: stringify the value and truncate
to 2000 characters, a character being a UTF-16 code unit as for `length`. -/
def textProjectionReference (text : String) : Fragment :=
  .rich_text (firstUnits 2000 (toCodeUnits text))

/-! ## The effect of one turn of the mapping loop -/

/-- What a turn of the loop does to the row does not depend on the row: it
throws, leaves the row as it is, or assigns one fragment under the key. -/
def applyEffect (w : Option (Option Fragment)) (p : RowProperties) (k : String) :
    Option RowProperties :=
  match w with
  | none => none
  | some none => some p
  | some (some f) => some (assignProp p k f)

/-! ## Lemmas on objects -/

theorem getProp_setProp_same {α : Type} (o : List (String × α)) (k : String) (v : α) :
    getProp (setProp o k v) k = some v := by
  induction o with
  | nil => simp [setProp, getProp]
  | cons e rest ih =>
    obtain ⟨k0, v0⟩ := e
    by_cases h : k0 = k
    · simp [setProp, getProp, h]
    · simp [setProp, getProp, h, ih]

theorem getProp_setProp_other {α : Type} (o : List (String × α)) (k k1 : String) (v : α)
    (h : k1 ≠ k) : getProp (setProp o k v) k1 = getProp o k1 := by
  induction o with
  | nil => simp [setProp, getProp, Ne.symm h]
  | cons e rest ih =>
    obtain ⟨k0, v0⟩ := e
    by_cases h0 : k0 = k
    · subst h0
      simp [setProp, getProp, Ne.symm h]
    · by_cases h1 : k0 = k1
      · subst h1
        simp [setProp, getProp, h]
      · simp [setProp, getProp, h0, h1, ih]

theorem mem_objectKeys_setProp {α : Type} (o : List (String × α)) (k k1 : String) (v : α) :
    k1 ∈ objectKeys (setProp o k v) ↔ k1 = k ∨ k1 ∈ objectKeys o := by
  induction o with
  | nil => simp [setProp, objectKeys]
  | cons e rest ih =>
    obtain ⟨k0, v0⟩ := e
    by_cases h0 : k0 = k
    · subst h0
      simp [setProp, objectKeys]
    · simp only [objectKeys] at ih
      simp [setProp, objectKeys, h0, ih]
      tauto

theorem nodup_objectKeys_setProp {α : Type} (o : List (String × α)) (k : String) (v : α)
    (h : (objectKeys o).Nodup) : (objectKeys (setProp o k v)).Nodup := by
  induction o with
  | nil => simp [setProp, objectKeys]
  | cons e rest ih =>
    obtain ⟨k0, v0⟩ := e
    have hrest : (objectKeys rest).Nodup := by
      simp only [objectKeys, List.map_cons, List.nodup_cons] at h
      exact h.2
    have hk0 : k0 ∉ objectKeys rest := by
      simp only [objectKeys, List.map_cons, List.nodup_cons] at h
      exact h.1
    by_cases h0 : k0 = k
    · subst h0
      simpa [setProp, objectKeys] using h
    · have hmem := mem_objectKeys_setProp rest k k0 v
      have hnot : k0 ∉ objectKeys (setProp rest k v) := by
        rw [hmem]
        simp [h0, hk0]
      have ih1 := ih hrest
      simp only [objectKeys] at hnot ih1
      simp [setProp, objectKeys, h0, hnot, ih1]

theorem getProp_eq_none_iff {α : Type} (o : List (String × α)) (k : String) :
    getProp o k = none ↔ k ∉ objectKeys o := by
  induction o with
  | nil => simp [getProp, objectKeys]
  | cons e rest ih =>
    obtain ⟨k0, v0⟩ := e
    simp only [objectKeys] at ih
    by_cases h0 : k0 = k
    · simp [getProp, objectKeys, h0]
    · simp [getProp, objectKeys, h0, ih, Ne.symm h0]

theorem getProp_of_mem_nodup {α : Type} (o : List (String × α)) (k : String) (v : α)
    (hn : (objectKeys o).Nodup) (hm : (k, v) ∈ o) : getProp o k = some v := by
  induction o with
  | nil => simp at hm
  | cons e rest ih =>
    obtain ⟨k0, v0⟩ := e
    simp only [objectKeys, List.map_cons, List.nodup_cons] at hn
    rcases List.mem_cons.mp hm with heq | hin
    · simp only [Prod.mk.injEq] at heq
      simp [getProp, heq.1, heq.2]
    · have hne : k0 ≠ k := by
        intro h
        apply hn.1
        rw [h]
        exact List.mem_map.mpr ⟨(k, v), hin, rfl⟩
      simp [getProp, hne, ih hn.2 hin]

theorem exists_getProp_of_mem_keys {α : Type} (o : List (String × α)) (k : String)
    (h : k ∈ objectKeys o) : ∃ v, getProp o k = some v ∧ (k, v) ∈ o := by
  induction o with
  | nil => simp [objectKeys] at h
  | cons e rest ih =>
    obtain ⟨k0, v0⟩ := e
    by_cases h0 : k0 = k
    · exact ⟨v0, by simp [getProp, h0], by simp [h0]⟩
    · have hin : k ∈ objectKeys rest := by
        simp only [objectKeys, List.map_cons, List.mem_cons] at h
        rcases h with h | h
        · exact absurd h.symm h0
        · exact h
      obtain ⟨v, hv, hmem⟩ := ih hin
      exact ⟨v, by simp [getProp, h0, hv], List.mem_cons_of_mem _ hmem⟩

theorem assignProp_proto {α : Type} (o : List (String × α)) (v : α) :
    assignProp o "__proto__" v = o := by
  simp [assignProp]

theorem getProp_assignProp_same {α : Type} (o : List (String × α)) (k : String) (v : α)
    (h : k ≠ "__proto__") : getProp (assignProp o k v) k = some v := by
  simp only [assignProp, h, if_false]
  exact getProp_setProp_same o k v

theorem getProp_assignProp_other {α : Type} (o : List (String × α)) (k k1 : String) (v : α)
    (h : k1 ≠ k) : getProp (assignProp o k v) k1 = getProp o k1 := by
  unfold assignProp
  split_ifs
  · rfl
  · exact getProp_setProp_other o k k1 v h

theorem mem_objectKeys_assignProp {α : Type} (o : List (String × α)) (k k1 : String) (v : α) :
    k1 ∈ objectKeys (assignProp o k v) ↔ (k1 = k ∧ k ≠ "__proto__") ∨ k1 ∈ objectKeys o := by
  unfold assignProp
  split_ifs with h
  · simp [h]
  · rw [mem_objectKeys_setProp]
    simp [h]

theorem nodup_objectKeys_assignProp {α : Type} (o : List (String × α)) (k : String) (v : α)
    (h : (objectKeys o).Nodup) : (objectKeys (assignProp o k v)).Nodup := by
  unfold assignProp
  split_ifs
  · exact h
  · exact nodup_objectKeys_setProp o k v h


/-! ## Lemmas on the mapping loop -/

theorem applyEffect_other (w : Option (Option Fragment)) (p r : RowProperties) (k k1 : String)
    (h : applyEffect w p k = some r) (hk : k1 ≠ k) : getProp r k1 = getProp p k1 := by
  rcases w with _ | _ | f
  · simp [applyEffect] at h
  · simp only [applyEffect, Option.some.injEq] at h
    rw [← h]
  · simp only [applyEffect, Option.some.injEq] at h
    rw [← h]
    exact getProp_assignProp_other p k k1 f hk

theorem applyEffect_congr (w : Option (Option Fragment)) (p q r : RowProperties) (k : String)
    (h : applyEffect w p k = some r) (hpq : getProp q k = getProp p k) :
    ∃ r0, applyEffect w q k = some r0 ∧ getProp r0 k = getProp r k := by
  rcases w with _ | _ | f
  · simp [applyEffect] at h
  · simp only [applyEffect, Option.some.injEq] at h
    exact ⟨q, rfl, by rw [← h, hpq]⟩
  · simp only [applyEffect, Option.some.injEq] at h
    refine ⟨assignProp q k f, rfl, ?_⟩
    rw [← h]
    by_cases hk : k = "__proto__"
    · subst hk
      rw [assignProp_proto, assignProp_proto, hpq]
    · rw [getProp_assignProp_same q k f hk, getProp_assignProp_same p k f hk]

theorem textFragment_effect (k : String) (v : JValue) :
    ∀ p : RowProperties, (textFragment v).map (assignProp p k)
      = applyEffect ((textFragment v).map some) p k := by
  intro p
  cases textFragment v <;> rfl

theorem switchOnType_effect (eng : Engine) (type : Option String) (k : String) (v : JValue) :
    ∃ w, ∀ p, switchOnType eng type p k v = applyEffect w p k := by
  unfold switchOnType
  split_ifs
  · exact ⟨_, textFragment_effect k v⟩
  · rcases toNumber eng v with _ | _ | n
    · exact ⟨none, fun _ => rfl⟩
    · exact ⟨some none, fun _ => rfl⟩
    · exact ⟨some (some (.number n)), fun _ => rfl⟩
  · exact ⟨some (some (.checkbox (truthy v))), fun _ => rfl⟩
  · cases v with
    | str s =>
      by_cases hs : matchesDate s = true
      · exact ⟨some (some (.date s)), fun _ => by simp [hs, applyEffect]⟩
      · exact ⟨some none, fun _ => by simp [hs, applyEffect]⟩
    | null => exact ⟨some none, fun _ => rfl⟩
    | bool b => exact ⟨some none, fun _ => rfl⟩
    | num n => exact ⟨some none, fun _ => rfl⟩
    | arr items => exact ⟨some none, fun _ => rfl⟩
    | obj members => exact ⟨some none, fun _ => rfl⟩
  · exact ⟨_, textFragment_effect k v⟩
  · exact ⟨_, textFragment_effect k v⟩

theorem projectValue_effect (eng : Engine) (type : Option String) (k : String) (v : JValue) :
    ∃ w, ∀ p, projectValue eng type p k v = applyEffect w p k := by
  obtain ⟨w, hw⟩ := switchOnType_effect eng type k v
  rcases w with _ | w
  · refine ⟨(textFragment v).map some, fun p => ?_⟩
    simp only [projectValue, hw p, applyEffect]
    exact textFragment_effect k v p
  · refine ⟨some w, fun p => ?_⟩
    simp only [projectValue, hw p]
    rcases w with _ | f <;> rfl

theorem mapField_effect (eng : Engine) (schema : SchemaObject) (entry : String × JValue) :
    ∃ w, ∀ p, mapField eng schema p entry = applyEffect w p entry.1 := by
  unfold mapField
  split_ifs
  · exact ⟨some none, fun _ => rfl⟩
  · cases schemaGet schema entry.1 with
    | undefined => exact ⟨some none, fun _ => rfl⟩
    | other => exact projectValue_effect eng none entry.1 entry.2
    | column type => exact projectValue_effect eng (some type) entry.1 entry.2

theorem getProp_mapField_other (eng : Engine) (schema : SchemaObject) (p r : RowProperties)
    (entry : String × JValue) (k1 : String) (h : mapField eng schema p entry = some r)
    (hk : k1 ≠ entry.1) : getProp r k1 = getProp p k1 := by
  obtain ⟨w, hw⟩ := mapField_effect eng schema entry
  rw [hw p] at h
  exact applyEffect_other w p r entry.1 k1 h hk

theorem getProp_mapFields_of_not_mem (eng : Engine) (schema : SchemaObject) (es : Payload)
    (p r : RowProperties) (k : String) (h : mapFields eng schema p es = some r)
    (hk : k ∉ objectKeys es) : getProp r k = getProp p k := by
  induction es generalizing p with
  | nil =>
    simp only [mapFields, Option.some.injEq] at h
    rw [← h]
  | cons e rest ih =>
    simp only [objectKeys, List.map_cons, List.mem_cons, not_or] at hk
    simp only [mapFields] at h
    cases hstep : mapField eng schema p e with
    | none => simp [hstep] at h
    | some p1 =>
      simp only [hstep] at h
      rw [ih p1 h hk.2]
      exact getProp_mapField_other eng schema p p1 e k hstep hk.1

theorem getProp_mapFields_of_mem (eng : Engine) (schema : SchemaObject) (es : Payload)
    (p r : RowProperties) (k : String) (v : JValue) (hn : (objectKeys es).Nodup)
    (hm : (k, v) ∈ es) (h : mapFields eng schema p es = some r) :
    ∃ r0, mapField eng schema p (k, v) = some r0 ∧ getProp r k = getProp r0 k := by
  induction es generalizing p with
  | nil => simp at hm
  | cons e rest ih =>
    simp only [objectKeys, List.map_cons, List.nodup_cons] at hn
    simp only [mapFields] at h
    cases hstep : mapField eng schema p e with
    | none => simp [hstep] at h
    | some p1 =>
      simp only [hstep] at h
      rcases List.mem_cons.mp hm with heq | hin
      · subst heq
        exact ⟨p1, hstep, getProp_mapFields_of_not_mem eng schema rest p1 r k h hn.1⟩
      · have hne : k ≠ e.1 := by
          intro hk
          apply hn.1
          rw [← hk]
          exact List.mem_map.mpr ⟨(k, v), hin, rfl⟩
        obtain ⟨r1, hr1, hget⟩ := ih p1 hn.2 hin h
        obtain ⟨w, hw⟩ := mapField_effect eng schema (k, v)
        rw [hw p1] at hr1
        have hsame : getProp p k = getProp p1 k :=
          (getProp_mapField_other eng schema p p1 e k hstep hne).symm
        obtain ⟨r0, hr0, hget0⟩ := applyEffect_congr w p1 p r1 k hr1 hsame
        exact ⟨r0, by rw [hw p]; exact hr0, by rw [hget, hget0]⟩

theorem toNumber_isSome_of_convertible (eng : Engine) (v : JValue)
    (h : convertible v = true) : (toNumber eng v).isSome = true := by
  cases v with
  | null => rfl
  | bool b => rfl
  | num n => rfl
  | str s => rfl
  | arr items =>
    simp only [convertible, jsToString] at h
    simp only [toNumber, Option.isSome_map']
    exact h
  | obj members =>
    simp only [convertible, jsToString] at h
    simp only [toNumber]
    split_ifs with hc
    · rw [if_pos hc] at h
      exact absurd h (by simp)
    · rfl

theorem projectValue_isSome_of_convertible (eng : Engine) (type : Option String)
    (p : RowProperties) (k : String) (v : JValue) (h : convertible v = true) :
    (projectValue eng type p k v).isSome = true := by
  have ht : ∃ f, textFragment v = some f := by
    simp only [convertible] at h
    obtain ⟨s, hs⟩ := Option.isSome_iff_exists.mp h
    exact ⟨.rich_text ((toCodeUnits s).take 2000), by simp [textFragment, hs]⟩
  obtain ⟨f, hf⟩ := ht
  unfold projectValue
  cases hsw : switchOnType eng type p k v with
  | some r => rfl
  | none => simp [hf]

theorem mapFields_isSome_of_convertible (eng : Engine) (schema : SchemaObject) (es : Payload)
    (p : RowProperties) (h : ∀ e ∈ es, convertible e.2 = true) :
    ∃ r, mapFields eng schema p es = some r := by
  induction es generalizing p with
  | nil => exact ⟨p, rfl⟩
  | cons e rest ih =>
    have he : convertible e.2 = true := h e (List.mem_cons_self _ _)
    have hstep : ∃ p1, mapField eng schema p e = some p1 := by
      unfold mapField
      split_ifs
      · exact ⟨p, rfl⟩
      · cases schemaGet schema e.1 with
        | undefined => exact ⟨p, rfl⟩
        | other =>
          exact Option.isSome_iff_exists.mp
            (projectValue_isSome_of_convertible eng none p e.1 e.2 he)
        | column type =>
          exact Option.isSome_iff_exists.mp
            (projectValue_isSome_of_convertible eng (some type) p e.1 e.2 he)
    obtain ⟨p1, hp1⟩ := hstep
    obtain ⟨r, hr⟩ := ih p1 (fun e1 he1 => h e1 (List.mem_cons_of_mem _ he1))
    exact ⟨r, by simp [mapFields, hp1, hr]⟩

/-- The entry of the outgoing row under a payload key other than `callerName`
and other than the title column is the one written by the turn of the mapping
loop for that key, started from the empty row. -/
theorem getProp_buildProperties (eng : Engine) (schema : SchemaObject) (title : String)
    (payload : Payload) (now key : String) (v : JValue) (row : RowProperties)
    (hn : (objectKeys payload).Nodup) (hm : (key, v) ∈ payload) (htitle : key ≠ title)
    (h : buildProperties eng schema title payload now = some row) :
    ∃ r0, mapField eng schema [] (key, v) = some r0 ∧ getProp row key = getProp r0 key := by
  unfold buildProperties at h
  obtain ⟨r1, hr1, hget⟩ := getProp_mapFields_of_mem eng schema payload _ row key v hn hm h
  obtain ⟨w, hw⟩ := mapField_effect eng schema (key, v)
  rw [hw _] at hr1
  have hsame : getProp ([] : RowProperties) key
      = getProp (assignProp [] title (.title (titleContent payload now))) key := by
    rw [getProp_assignProp_other [] title key _ htitle]
  obtain ⟨r0, hr0, hget0⟩ := applyEffect_congr w _ [] r1 key hr1 hsame
  exact ⟨r0, by rw [hw []]; exact hr0, by rw [hget, hget0]⟩

/-- The mapping loop does not throw when every payload value has a string form. -/
theorem buildProperties_isSome (eng : Engine) (schema : SchemaObject) (title : String)
    (payload : Payload) (now : String) (h : ∀ e ∈ payload, convertible e.2 = true) :
    ∃ row, buildProperties eng schema title payload now = some row :=
  mapFields_isSome_of_convertible eng schema payload _ h

/-- A string, a number, a boolean and `null` have a string form. -/
theorem convertible_of_scalar (v : JValue)
    (h : v = .null ∨ v.isBoolean = true ∨ v.isNumber = true ∨ v.isString = true) :
    convertible v = true := by
  cases v with
  | null => rfl
  | bool b => rfl
  | num n => rfl
  | str s => rfl
  | arr items => simp [JValue.isBoolean, JValue.isNumber, JValue.isString] at h
  | obj members => simp [JValue.isBoolean, JValue.isNumber, JValue.isString] at h

theorem schemaGet_of_own (schema : SchemaObject) (key type : String)
    (h : getProp schema.own key = some type) : schemaGet schema key = .column type := by
  simp [schemaGet, h]

/-! ## C1: projection onto a number column -/

/-- C1, counterexample: on a column of type number the boolean `true` and the
empty string are not omitted from the outgoing row, they are held as the
numbers 1 and 0. -/
theorem number_projection_keeps_boolean_and_empty_string :
    buildProperties referenceEngine
        ⟨[("Name", "title"), ("flag", "number"), ("blank", "number")], none⟩
        "Name" [("flag", .bool true), ("blank", .str "")] "2024-01-15T10:00:00.000Z"
      = some [("Name", .title (.str "Request from 2024-01-15T10:00:00.000Z")),
          ("flag", .number JSNum.one), ("blank", .number JSNum.zero)] := by
  rfl

/-- C1, amended: for a payload entry `key: v` routed to a column of type number
(the key is not `callerName`, not `__proto__`, and the column is not the title
column), in a payload whose values all have a string form, the outgoing row
holds `{number: Number(v)}` exactly when `Number(v)` is not `NaN`, and the key
is absent otherwise: a number is held unchanged, a boolean is held as 1 or 0,
the empty string as 0, and a string that does not denote a number is omitted. -/
theorem number_projection (eng : Engine) (schema : SchemaObject) (title : String)
    (payload : Payload) (now key : String) (v : JValue) (hn : (objectKeys payload).Nodup)
    (hm : (key, v) ∈ payload) (hkey : key ≠ "callerName") (htitle : key ≠ title)
    (hproto : key ≠ "__proto__") (hty : getProp schema.own key = some "number")
    (hconv : ∀ e ∈ payload, convertible e.2 = true) :
    ∃ row r, buildProperties eng schema title payload now = some row ∧
      toNumber eng v = some r ∧
      getProp row key = r.map Fragment.number ∧
      (∀ n, v = .num n → getProp row key = some (.number n)) ∧
      (∀ b, v = .bool b →
        getProp row key = some (.number (if b then JSNum.one else JSNum.zero))) ∧
      (v = .str "" → getProp row key = some (.number JSNum.zero)) ∧
      (∀ s, v = .str s → stringToNumber eng s = none → getProp row key = none) := by
  obtain ⟨row, hrow⟩ := buildProperties_isSome eng schema title payload now hconv
  obtain ⟨r0, hr0, hget⟩ :=
    getProp_buildProperties eng schema title payload now key v row hn hm htitle hrow
  have hv : convertible v = true := hconv (key, v) hm
  obtain ⟨r, hr⟩ := Option.isSome_iff_exists.mp (toNumber_isSome_of_convertible eng v hv)
  have main : getProp row key = r.map Fragment.number := by
    rw [hget]
    simp only [mapField, hkey, if_false, schemaGet_of_own schema key "number" hty,
      projectValue, switchOnType, show ¬ (some "number" = some "rich_text") by decide,
      if_true, hr] at hr0
    rcases r with _ | n
    · simp only [Option.some.injEq] at hr0
      rw [← hr0]
      rfl
    · simp only [Option.some.injEq] at hr0
      rw [← hr0, getProp_assignProp_same [] key _ hproto]
      rfl
  refine ⟨row, r, hrow, hr, main, ?_, ?_, ?_, ?_⟩
  · intro n hvn
    subst hvn
    simp only [toNumber, Option.some.injEq] at hr
    rw [main, ← hr]
    rfl
  · intro b hvb
    subst hvb
    simp only [toNumber, Option.some.injEq] at hr
    rw [main, ← hr]
    rfl
  · intro hvs
    subst hvs
    have : r = some JSNum.zero := by
      have h2 : toNumber eng (.str "") = some (some JSNum.zero) := rfl
      rw [h2] at hr
      exact (Option.some.inj hr).symm
    rw [main, this]
    rfl
  · intro s hvs hs
    subst hvs
    simp only [toNumber, Option.some.injEq] at hr
    rw [main, ← hr, hs]
    rfl

/-- C1, witness: the payload `{score: 42}` on a schema with the number column
`score` gives a row holding `{number: 42}`. -/
theorem number_projection_witness :
    (objectKeys [("score", JValue.num (.fin false 42 0))]).Nodup ∧
    "score" ≠ "callerName" ∧ "score" ≠ "Name" ∧ "score" ≠ "__proto__" ∧
    buildProperties referenceEngine ⟨[("Name", "title"), ("score", "number")], none⟩ "Name"
        [("score", .num (.fin false 42 0))] "2024-01-15T10:00:00.000Z"
      = some [("Name", .title (.str "Request from 2024-01-15T10:00:00.000Z")),
          ("score", .number (.fin false 42 0))] ∧
    ∃ row, buildProperties referenceEngine ⟨[("Name", "title"), ("score", "number")], none⟩
        "Name" [("score", .num (.fin false 42 0))] "2024-01-15T10:00:00.000Z" = some row ∧
      getProp row "score" = some (.number (.fin false 42 0)) :=
  ⟨by decide, by decide, by decide, by decide, rfl,
    match number_projection referenceEngine ⟨[("Name", "title"), ("score", "number")], none⟩
      "Name" [("score", .num (.fin false 42 0))] "2024-01-15T10:00:00.000Z" "score"
      (.num (.fin false 42 0)) (by decide) (by simp) (by decide) (by decide) (by decide)
      rfl (by simp [convertible, jsToString]) with
    | ⟨row, _, hrow, _, _, hnum, _⟩ => ⟨row, hrow, hnum _ rfl⟩⟩

/-! ## C2: the title property -/

/-- The title column holds the title fragment whenever no payload key is the
name of the title column, the column is not named `__proto__` and the loop
does not throw. -/
theorem title_kept_of_not_payload_key (eng : Engine) (schema : SchemaObject) (title : String)
    (payload : Payload) (now : String) (row : RowProperties) (h : title ∉ objectKeys payload)
    (hproto : title ≠ "__proto__")
    (hrow : buildProperties eng schema title payload now = some row) :
    getProp row title = some (.title (titleContent payload now)) := by
  unfold buildProperties at hrow
  rw [getProp_mapFields_of_not_mem eng schema payload _ row title hrow h]
  exact getProp_assignProp_same [] title _ hproto

/-- The content of the title is `callerName` when that is a non-empty string. -/
theorem titleContent_of_callerName (payload : Payload) (now name : String)
    (h : getProp payload "callerName" = some (.str name)) (hne : name ≠ "") :
    titleContent payload now = .str name := by
  have hd : name.data ≠ [] := by
    intro hnil
    apply hne
    cases name
    simp_all
  simp [titleContent, h, truthy, hd]

/-- The payload `{callerName: "Alice"}` gives a row whose only property is the
title column, with the content `Alice`. -/
theorem alice_row (eng : Engine) (schema : SchemaObject) (title now : String)
    (hproto : title ≠ "__proto__") :
    buildProperties eng schema title [("callerName", .str "Alice")] now
      = some [(title, .title (.str "Alice"))] := by
  simp [buildProperties, mapFields, mapField, titleContent, getProp, truthy, assignProp,
    setProp, hproto]

/-- C2, the code at the failing input: with the title column `Name`, the payload
`{callerName: "Alice", Name: "oops"}` gives a row whose property `Name` is a
text fragment; the title fragment has been replaced and the row holds no title. -/
theorem title_replaced_by_payload_key :
    buildProperties referenceEngine ⟨[("Name", "title")], none⟩ "Name"
        [("callerName", .str "Alice"), ("Name", .str "oops")] "2024-01-15T10:00:00.000Z"
      = some [("Name", .rich_text (toCodeUnits "oops"))] := by
  rfl

/-! ## C3: a failed schema patch -/

theorem mem_objectKeys_of_findTitleProperty (schema : Schema) (title : String)
    (h : findTitleProperty schema = some title) : title ∈ objectKeys schema := by
  unfold findTitleProperty at h
  cases hf : schema.find? (fun entry => entry.2 == "title") with
  | none => simp [hf] at h
  | some e =>
    simp only [hf, Option.map_some', Option.some.injEq] at h
    have hmem := List.mem_of_find?_eq_some hf
    rw [← h]
    exact List.mem_map.mpr ⟨e, hmem, rfl⟩

theorem mem_missingProperties (schema : Schema) (payload : Payload) (k : String) :
    k ∈ missingProperties schema payload ↔
      k ∈ objectKeys payload ∧ k ∉ objectKeys schema ∧ k ≠ "callerName" := by
  simp [missingProperties, List.mem_filter]

/-- A key that is no own property of the schema, no method of
`Object.prototype` and not the title column is absent from the outgoing row
built with the schema as it was fetched. -/
theorem getProp_buildProperties_of_no_column (eng : Engine) (schema : Schema) (title : String)
    (payload : Payload) (now k : String) (row : RowProperties)
    (hrow : buildProperties eng ⟨schema, none⟩ title payload now = some row)
    (h : k ∉ objectKeys schema) (hm : k ∉ objectPrototypeMethods) (ht : k ≠ title) :
    getProp row k = none := by
  have hstep : ∀ (es : Payload) (p r : RowProperties),
      mapFields eng ⟨schema, none⟩ p es = some r → getProp r k = getProp p k := by
    intro es
    induction es with
    | nil =>
      intro p r hr
      simp only [mapFields, Option.some.injEq] at hr
      rw [← hr]
    | cons e rest ih =>
      intro p r hr
      simp only [mapFields] at hr
      cases hs : mapField eng ⟨schema, none⟩ p e with
      | none => simp [hs] at hr
      | some p1 =>
        simp only [hs] at hr
        rw [ih p1 r hr]
        by_cases hk : k = e.1
        · by_cases hp : k = "__proto__"
          · obtain ⟨w, hw⟩ := mapField_effect eng ⟨schema, none⟩ e
            rw [hw p] at hs
            rcases w with _ | _ | f
            · simp [applyEffect] at hs
            · simp only [applyEffect, Option.some.injEq] at hs
              rw [← hs]
            · simp only [applyEffect, Option.some.injEq] at hs
              rw [← hs, ← hk, hp, assignProp_proto]
          · have hget : schemaGet ⟨schema, none⟩ e.1 = .undefined := by
              rw [← hk]
              have hnone : getProp schema k = none := (getProp_eq_none_iff schema k).mpr h
              have hc : objectPrototypeMethods.contains k = false := by
                simpa using hm
              simp [schemaGet, hnone, hp, hc, hm]
            unfold mapField at hs
            rw [hget] at hs
            split_ifs at hs <;>
              · simp only [Option.some.injEq] at hs
                rw [← hs]
        · exact getProp_mapField_other eng ⟨schema, none⟩ p p1 e k hs hk
  unfold buildProperties at hrow
  rw [hstep payload _ row hrow, getProp_assignProp_other [] title k _ ht]
  rfl

/-- C3, counterexample: the schema patch is answered with status 400 and the
schema read that follows it with a schema holding the column `note`; the row
is built with that column, so the missing key `note` is in the outgoing row. -/
theorem failed_patch_uses_refreshed_schema :
    (fetchHandler referenceEngine
      (scriptedRemote
        [.ok ⟨200, "", .ok [("Name", "title")]⟩,
         .ok ⟨400, "validation_error", .error "not a database"⟩,
         .ok ⟨200, "", .ok [("Name", "title"), ("note", "rich_text")]⟩,
         .ok ⟨200, "", .error "not a database"⟩])
      "2024-01-15T10:00:00.000Z"
      ⟨"POST", .ok [("note", .str "x")]⟩
      ⟨some "secret", some "test-database-id-12345"⟩).trace
    = [.getDatabase "test-database-id-12345" "secret",
       .patchDatabase "test-database-id-12345" "secret" [("note", .rich_text)],
       .getDatabase "test-database-id-12345" "secret",
       .createPage "secret" "test-database-id-12345"
         [("Name", .title (.str "Request from 2024-01-15T10:00:00.000Z")),
          ("note", .rich_text (toCodeUnits "x"))]] := by
  rfl

theorem submitRow_trace (eng : Engine) (remote : Remote) (dbId token : String)
    (schema : SchemaObject) (title : String) (payload : Payload) (now : String)
    (trace : List RemoteCall) :
    (submitRow eng remote dbId token schema title payload now trace).trace
      = match buildProperties eng schema title payload now with
        | some row => trace ++ [.createPage token dbId row]
        | none => trace := by
  unfold submitRow
  cases buildProperties eng schema title payload now with
  | none => rfl
  | some row =>
    dsimp only
    cases remote (trace ++ [.createPage token dbId row]) with
    | error msg => rfl
    | ok notionRes => by_cases h : notionRes.ok = true <;> simp [h]

/-- The handler on a POST request with credentials and a parsed body, once the
schema has been read and its title column found: reconciliation, then the row. -/
theorem fetchHandler_of_schema (eng : Engine) (remote : Remote) (now : String)
    (request : Request) (env : Env)
    (payload : Payload) (r1 : RemoteResponse) (S : Schema) (T : String)
    (hmethod : request.method = "POST") (htoken : isSet env.NOTION_TOKEN = true)
    (hdb : isSet env.NOTION_DB_ID = true) (hjson : request.json = .ok payload)
    (h1 : remote [.getDatabase (normalizeDbId (env.NOTION_DB_ID.getD ""))
      (env.NOTION_TOKEN.getD "")] = .ok r1)
    (hok1 : r1.ok = true) (hs1 : r1.schema = .ok S) (hT : findTitleProperty S = some T) :
    fetchHandler eng remote now request env =
      match (reconcile remote (normalizeDbId (env.NOTION_DB_ID.getD ""))
          (env.NOTION_TOKEN.getD "") S payload
          [.getDatabase (normalizeDbId (env.NOTION_DB_ID.getD ""))
            (env.NOTION_TOKEN.getD "")]).result with
      | .error msg =>
        ⟨⟨"Worker error: " ++ msg, 500⟩,
          (reconcile remote (normalizeDbId (env.NOTION_DB_ID.getD ""))
            (env.NOTION_TOKEN.getD "") S payload
            [.getDatabase (normalizeDbId (env.NOTION_DB_ID.getD ""))
              (env.NOTION_TOKEN.getD "")]).trace⟩
      | .ok schema =>
        submitRow eng remote (normalizeDbId (env.NOTION_DB_ID.getD ""))
          (env.NOTION_TOKEN.getD "") schema T payload now
          (reconcile remote (normalizeDbId (env.NOTION_DB_ID.getD ""))
            (env.NOTION_TOKEN.getD "") S payload
            [.getDatabase (normalizeDbId (env.NOTION_DB_ID.getD ""))
              (env.NOTION_TOKEN.getD "")]).trace := by
  unfold fetchHandler
  simp only [hmethod, htoken, hdb, hjson, h1, hok1, hs1, hT, ne_eq, not_true_eq_false,
    if_false, Bool.not_true, Bool.false_eq_true]

/-- C3, amended: when the schema patch is answered with a non-success status
the request is not aborted on that account and the schema is read again. If
that read is answered with a non-success status too, the row is built with
exactly the schema of the initial fetch, and every payload key missing from it
that is not the name of a method of `Object.prototype` is absent from the
outgoing row; if it succeeds, the row is built with the initial schema
overlaid with the columns read. The payload values have a string form. -/
theorem failed_patch_continues (eng : Engine) (remote : Remote) (now : String)
    (request : Request) (env : Env)
    (payload : Payload) (r1 r2 r3 : RemoteResponse) (S : Schema) (T : String)
    (hmethod : request.method = "POST") (htoken : isSet env.NOTION_TOKEN = true)
    (hdb : isSet env.NOTION_DB_ID = true) (hjson : request.json = .ok payload)
    (h1 : remote [.getDatabase (normalizeDbId (env.NOTION_DB_ID.getD ""))
      (env.NOTION_TOKEN.getD "")] = .ok r1)
    (hok1 : r1.ok = true) (hs1 : r1.schema = .ok S) (hT : findTitleProperty S = some T)
    (hmiss : missingProperties S payload ≠ [])
    (h2 : remote [.getDatabase (normalizeDbId (env.NOTION_DB_ID.getD ""))
        (env.NOTION_TOKEN.getD ""),
      .patchDatabase (normalizeDbId (env.NOTION_DB_ID.getD "")) (env.NOTION_TOKEN.getD "")
        (updateProperties payload (missingProperties S payload))] = .ok r2)
    (_hpatch : r2.ok = false)
    (h3 : remote [.getDatabase (normalizeDbId (env.NOTION_DB_ID.getD ""))
        (env.NOTION_TOKEN.getD ""),
      .patchDatabase (normalizeDbId (env.NOTION_DB_ID.getD "")) (env.NOTION_TOKEN.getD "")
        (updateProperties payload (missingProperties S payload)),
      .getDatabase (normalizeDbId (env.NOTION_DB_ID.getD ""))
        (env.NOTION_TOKEN.getD "")] = .ok r3)
    (hconv : ∀ e ∈ payload, convertible e.2 = true) :
    (r3.ok = false →
      ∃ row, buildProperties eng ⟨S, none⟩ T payload now = some row ∧
        (fetchHandler eng remote now request env).trace
          = [.getDatabase (normalizeDbId (env.NOTION_DB_ID.getD ""))
               (env.NOTION_TOKEN.getD ""),
             .patchDatabase (normalizeDbId (env.NOTION_DB_ID.getD ""))
               (env.NOTION_TOKEN.getD "")
               (updateProperties payload (missingProperties S payload)),
             .getDatabase (normalizeDbId (env.NOTION_DB_ID.getD ""))
               (env.NOTION_TOKEN.getD ""),
             .createPage (env.NOTION_TOKEN.getD "")
               (normalizeDbId (env.NOTION_DB_ID.getD "")) row] ∧
        ∀ k ∈ missingProperties S payload, k ∉ objectPrototypeMethods →
          getProp row k = none) ∧
    (∀ R, r3.ok = true → r3.schema = .ok R →
      ∃ row, buildProperties eng (schemaAssign ⟨S, none⟩ R) T payload now = some row ∧
        (fetchHandler eng remote now request env).trace
          = [.getDatabase (normalizeDbId (env.NOTION_DB_ID.getD ""))
               (env.NOTION_TOKEN.getD ""),
             .patchDatabase (normalizeDbId (env.NOTION_DB_ID.getD ""))
               (env.NOTION_TOKEN.getD "")
               (updateProperties payload (missingProperties S payload)),
             .getDatabase (normalizeDbId (env.NOTION_DB_ID.getD ""))
               (env.NOTION_TOKEN.getD ""),
             .createPage (env.NOTION_TOKEN.getD "")
               (normalizeDbId (env.NOTION_DB_ID.getD "")) row]) := by
  have hlen : (missingProperties S payload).length > 0 := List.length_pos.mpr hmiss
  rw [fetchHandler_of_schema eng remote now request env payload r1 S T hmethod htoken hdb
    hjson h1 hok1 hs1 hT]
  constructor
  · intro hok3
    obtain ⟨row, hrow⟩ := buildProperties_isSome eng ⟨S, none⟩ T payload now hconv
    refine ⟨row, hrow, ?_, ?_⟩
    · simp [reconcile, hlen, h2, h3, hok3, submitRow_trace, hrow]
    · intro k hk hmeth
      have hk1 := (mem_missingProperties S payload k).mp hk
      apply getProp_buildProperties_of_no_column eng S T payload now k row hrow hk1.2.1 hmeth
      intro hkt
      apply hk1.2.1
      rw [hkt]
      exact mem_objectKeys_of_findTitleProperty S T hT
  · intro R hok3 hs3
    obtain ⟨row, hrow⟩ :=
      buildProperties_isSome eng (schemaAssign ⟨S, none⟩ R) T payload now hconv
    refine ⟨row, hrow, ?_⟩
    simp [reconcile, hlen, h2, h3, hok3, hs3, submitRow_trace, hrow]

/-- C3, witness: the patch is answered with status 400 and the second schema
read with status 503; the page is created from the initial schema and the
missing key `note` is absent from the row. -/
theorem failed_patch_continues_witness :
    (fetchHandler referenceEngine
      (scriptedRemote
        [.ok ⟨200, "", .ok [("Name", "title")]⟩,
         .ok ⟨400, "validation_error", .error "not a database"⟩,
         .ok ⟨503, "unavailable", .error "not a database"⟩,
         .ok ⟨200, "", .error "not a database"⟩])
      "2024-01-15T10:00:00.000Z"
      ⟨"POST", .ok [("note", .str "x")]⟩
      ⟨some "secret", some "test-database-id-12345"⟩).trace
    = [.getDatabase "test-database-id-12345" "secret",
       .patchDatabase "test-database-id-12345" "secret" [("note", .rich_text)],
       .getDatabase "test-database-id-12345" "secret",
       .createPage "secret" "test-database-id-12345"
         [("Name", .title (.str "Request from 2024-01-15T10:00:00.000Z"))]] ∧
    ∃ row, buildProperties referenceEngine ⟨[("Name", "title")], none⟩ "Name"
        [("note", .str "x")] "2024-01-15T10:00:00.000Z" = some row ∧
      getProp row "note" = none :=
  ⟨rfl,
    match (failed_patch_continues referenceEngine
      (scriptedRemote
        [.ok ⟨200, "", .ok [("Name", "title")]⟩,
         .ok ⟨400, "validation_error", .error "not a database"⟩,
         .ok ⟨503, "unavailable", .error "not a database"⟩,
         .ok ⟨200, "", .error "not a database"⟩])
      "2024-01-15T10:00:00.000Z"
      ⟨"POST", .ok [("note", .str "x")]⟩
      ⟨some "secret", some "test-database-id-12345"⟩
      [("note", .str "x")]
      ⟨200, "", .ok [("Name", "title")]⟩
      ⟨400, "validation_error", .error "not a database"⟩
      ⟨503, "unavailable", .error "not a database"⟩
      [("Name", "title")] "Name"
      rfl rfl rfl rfl rfl rfl rfl rfl (by decide) rfl rfl rfl
      (by simp [convertible, jsToString])).1 rfl with
    | ⟨row, hrow, _, habs⟩ => ⟨row, hrow, habs "note" (by decide) (by decide)⟩⟩

/-! ## C4: nothing to reconcile -/

/-- C4: the missing keys are the payload keys that are no column of the schema,
`callerName` apart. When every payload key other than `callerName` is a column
of the fetched schema there is no missing key, reconciliation issues no call
and returns the fetched schema unmodified, and the handler issues the schema
read and, unless the mapping loop throws, the page creation, the row being
built with the fetched schema: no patch and no second schema read. -/
theorem no_missing_key_no_patch (eng : Engine) (remote : Remote) (now : String)
    (request : Request) (env : Env) (payload : Payload) (r1 : RemoteResponse) (S : Schema)
    (T : String)
    (hmethod : request.method = "POST") (htoken : isSet env.NOTION_TOKEN = true)
    (hdb : isSet env.NOTION_DB_ID = true) (hjson : request.json = .ok payload)
    (h1 : remote [.getDatabase (normalizeDbId (env.NOTION_DB_ID.getD ""))
      (env.NOTION_TOKEN.getD "")] = .ok r1)
    (hok1 : r1.ok = true) (hs1 : r1.schema = .ok S) (hT : findTitleProperty S = some T) :
    (∀ k, k ∈ missingProperties S payload ↔
      k ∈ objectKeys payload ∧ k ∉ objectKeys S ∧ k ≠ "callerName") ∧
    ((∀ k ∈ objectKeys payload, k ≠ "callerName" → k ∈ objectKeys S) →
      missingProperties S payload = [] ∧
      (∀ (dbId token : String) (trace : List RemoteCall),
        (reconcile remote dbId token S payload trace).trace = trace ∧
        (reconcile remote dbId token S payload trace).result = .ok ⟨S, none⟩) ∧
      (fetchHandler eng remote now request env).trace
        = match buildProperties eng ⟨S, none⟩ T payload now with
          | some row =>
            [.getDatabase (normalizeDbId (env.NOTION_DB_ID.getD ""))
               (env.NOTION_TOKEN.getD ""),
             .createPage (env.NOTION_TOKEN.getD "")
               (normalizeDbId (env.NOTION_DB_ID.getD "")) row]
          | none =>
            [.getDatabase (normalizeDbId (env.NOTION_DB_ID.getD ""))
               (env.NOTION_TOKEN.getD "")]) := by
  refine ⟨mem_missingProperties S payload, ?_⟩
  intro hall
  have hnone : missingProperties S payload = [] := by
    apply List.eq_nil_iff_forall_not_mem.mpr
    intro k hk
    have hk1 := (mem_missingProperties S payload k).mp hk
    exact hk1.2.1 (hall k hk1.1 hk1.2.2)
  have hrec : ∀ (dbId token : String) (trace : List RemoteCall),
      reconcile remote dbId token S payload trace = ⟨trace, .ok ⟨S, none⟩⟩ := by
    intro dbId token trace
    simp [reconcile, hnone]
  refine ⟨hnone, ?_, ?_⟩
  · intro dbId token trace
    rw [hrec]
    exact ⟨rfl, rfl⟩
  · rw [fetchHandler_of_schema eng remote now request env payload r1 S T hmethod htoken hdb
      hjson h1 hok1 hs1 hT, hrec]
    simp only [submitRow_trace]
    cases buildProperties eng ⟨S, none⟩ T payload now <;> rfl

/-- C4, witness: the payload `{callerName: "Alice", score: 42}` on a schema
with the columns `Name` and `score` is submitted after one schema read. -/
theorem no_missing_key_no_patch_witness :
    missingProperties [("Name", "title"), ("score", "number")]
      [("callerName", .str "Alice"), ("score", .num (.fin false 42 0))] = [] ∧
    buildProperties referenceEngine ⟨[("Name", "title"), ("score", "number")], none⟩ "Name"
      [("callerName", .str "Alice"), ("score", .num (.fin false 42 0))]
      "2024-01-15T10:00:00.000Z"
      = some [("Name", .title (.str "Alice")), ("score", .number (.fin false 42 0))] ∧
    (fetchHandler referenceEngine
      (scriptedRemote
        [.ok ⟨200, "", .ok [("Name", "title"), ("score", "number")]⟩,
         .ok ⟨200, "", .error "not a database"⟩])
      "2024-01-15T10:00:00.000Z"
      ⟨"POST", .ok [("callerName", .str "Alice"), ("score", .num (.fin false 42 0))]⟩
      ⟨some "secret", some "0123456789abcdef0123456789abcdef"⟩).trace
    = [.getDatabase "01234567-89ab-cdef-0123-456789abcdef" "secret",
       .createPage "secret" "01234567-89ab-cdef-0123-456789abcdef"
         [("Name", .title (.str "Alice")), ("score", .number (.fin false 42 0))]] :=
  have h := (no_missing_key_no_patch referenceEngine
    (scriptedRemote
      [.ok ⟨200, "", .ok [("Name", "title"), ("score", "number")]⟩,
       .ok ⟨200, "", .error "not a database"⟩])
    "2024-01-15T10:00:00.000Z"
    ⟨"POST", .ok [("callerName", .str "Alice"), ("score", .num (.fin false 42 0))]⟩
    ⟨some "secret", some "0123456789abcdef0123456789abcdef"⟩
    [("callerName", .str "Alice"), ("score", .num (.fin false 42 0))]
    ⟨200, "", .ok [("Name", "title"), ("score", "number")]⟩
    [("Name", "title"), ("score", "number")] "Name"
    rfl rfl rfl rfl rfl rfl rfl rfl).2 (by decide)
  ⟨h.1, rfl, h.2.2⟩

/-! ## C5: the schema patch -/

theorem updateProperties_foldl (f : String → ColumnSpec) (ks : List String)
    (init : List (String × ColumnSpec)) (hinit : (objectKeys init).Nodup) :
    (objectKeys (ks.foldl (fun acc k => assignProp acc k (f k)) init)).Nodup ∧
    (∀ k, k ∈ objectKeys (ks.foldl (fun acc k => assignProp acc k (f k)) init) ↔
      k ∈ objectKeys init ∨ (k ∈ ks ∧ k ≠ "__proto__")) ∧
    (∀ k ∈ ks, k ≠ "__proto__" →
      getProp (ks.foldl (fun acc k => assignProp acc k (f k)) init) k = some (f k)) ∧
    (∀ k, k ∉ ks →
      getProp (ks.foldl (fun acc k => assignProp acc k (f k)) init) k = getProp init k) := by
  induction ks generalizing init with
  | nil => simp [hinit]
  | cons k0 rest ih =>
    have ih1 := ih (assignProp init k0 (f k0)) (nodup_objectKeys_assignProp init k0 (f k0) hinit)
    simp only [List.foldl_cons]
    refine ⟨ih1.1, ?_, ?_, ?_⟩
    · intro k
      rw [ih1.2.1 k, mem_objectKeys_assignProp]
      simp only [List.mem_cons]
      constructor
      · rintro ((⟨h1, h2⟩ | h) | ⟨h1, h2⟩)
        · exact Or.inr ⟨Or.inl h1, by rw [h1]; exact h2⟩
        · exact Or.inl h
        · exact Or.inr ⟨Or.inr h1, h2⟩
      · rintro (h | ⟨h1 | h1, h2⟩)
        · exact Or.inl (Or.inr h)
        · exact Or.inl (Or.inl ⟨h1, by rw [← h1]; exact h2⟩)
        · exact Or.inr ⟨h1, h2⟩
    · intro k hk hp
      by_cases hr : k ∈ rest
      · exact ih1.2.2.1 k hr hp
      · have hk0 : k = k0 := by
          rcases List.mem_cons.mp hk with h | h
          · exact h
          · exact absurd h hr
        rw [ih1.2.2.2 k hr, hk0]
        exact getProp_assignProp_same init k0 (f k0) (by rw [← hk0]; exact hp)
    · intro k hk
      simp only [List.mem_cons, not_or] at hk
      rw [ih1.2.2.2 k hk.2]
      exact getProp_assignProp_other init k0 k (f k0) hk.1

theorem accepts_digit_iff (c : Char) : Atom.accepts .digit c = true ↔ c.isDigit = true := by
  simp only [Atom.accepts, Char.isDigit, decide_eq_true_eq, Bool.and_eq_true, ge_iff_le]
  have h0 : ('0' ≤ c) ↔ (48 : UInt32) ≤ c.val := by
    rw [Char.le_def]
    rfl
  have h9 : (c ≤ '9') ↔ c.val ≤ (57 : UInt32) := by
    rw [Char.le_def]
    rfl
  rw [h0, h9]

/-- The pattern of the code matches exactly the strings that begin with four
digits, a hyphen, two digits, a hyphen and two digits. -/
theorem matchesDate_iff (s : String) :
    matchesDate s = true ↔
      ∃ y1 y2 y3 y4 m1 m2 d1 d2 rest,
        s.data = y1 :: y2 :: y3 :: y4 :: '-' :: m1 :: m2 :: '-' :: d1 :: d2 :: rest ∧
        y1.isDigit = true ∧ y2.isDigit = true ∧ y3.isDigit = true ∧ y4.isDigit = true ∧
        m1.isDigit = true ∧ m2.isDigit = true ∧ d1.isDigit = true ∧ d2.isDigit = true := by
  unfold matchesDate datePattern
  constructor
  · intro h
    rcases hs : s.data with _ | ⟨y1, _ | ⟨y2, _ | ⟨y3, _ | ⟨y4, _ | ⟨h1, _ | ⟨m1, _ | ⟨m2,
      _ | ⟨h2, _ | ⟨d1, _ | ⟨d2, rest⟩⟩⟩⟩⟩⟩⟩⟩⟩⟩ <;> rw [hs] at h <;>
      simp only [matchesAtStart, Bool.and_eq_true, Bool.and_false, Bool.false_eq_true,
        and_false, false_and] at h
    refine ⟨y1, y2, y3, y4, m1, m2, d1, d2, rest, ?_, ?_⟩
    · have e1 : h1 = '-' := by
        have := h.2.2.2.2.1
        simp only [Atom.accepts, beq_iff_eq] at this
        exact this.symm
      have e2 : h2 = '-' := by
        have := h.2.2.2.2.2.2.2.1
        simp only [Atom.accepts, beq_iff_eq] at this
        exact this.symm
      rw [e1, e2]
    · simp only [accepts_digit_iff] at h
      exact ⟨h.1, h.2.1, h.2.2.1, h.2.2.2.1, h.2.2.2.2.2.1, h.2.2.2.2.2.2.1,
        h.2.2.2.2.2.2.2.2.1, h.2.2.2.2.2.2.2.2.2.1⟩
  · rintro ⟨y1, y2, y3, y4, m1, m2, d1, d2, rest, hs, hd⟩
    rw [hs]
    simp only [matchesAtStart, accepts_digit_iff, Bool.and_eq_true, Bool.and_true]
    simp [Atom.accepts, hd]

/-- The patch body, key by key: its keys are without repetition and are the
missing keys other than `__proto__`; the entry of such a key with value `v` is
`{number: {}}` for a number, `{checkbox: {}}` for a boolean, `{date: {}}` for
a string beginning with four digits, `-`, two digits, `-`, two digits, and
`{rich_text: {}}` for every other value; for the payload
`{callerName: "Bob", score: 42, active: true, seen: "2024-01-15", note: "x"}`
on a schema having `score` the missing keys are `active`, `seen`, `note` with
the entries checkbox, date, rich_text. -/
theorem patch_body_inference (schema : Schema) (payload : Payload) :
    (objectKeys (updateProperties payload (missingProperties schema payload))).Nodup ∧
    (∀ k, k ∈ objectKeys (updateProperties payload (missingProperties schema payload)) ↔
      k ∈ missingProperties schema payload ∧ k ≠ "__proto__") ∧
    (∀ k ∈ missingProperties schema payload, k ≠ "__proto__" →
      ∃ v, getProp payload k = some v ∧
        getProp (updateProperties payload (missingProperties schema payload)) k
          = some (inferColumn (some v))) ∧
    (∀ n, inferColumn (some (.num n)) = .number) ∧
    (∀ b, inferColumn (some (.bool b)) = .checkbox) ∧
    (∀ s, inferColumn (some (.str s)) = .date ↔
      ∃ y1 y2 y3 y4 m1 m2 d1 d2 rest,
        s.data = y1 :: y2 :: y3 :: y4 :: '-' :: m1 :: m2 :: '-' :: d1 :: d2 :: rest ∧
        y1.isDigit = true ∧ y2.isDigit = true ∧ y3.isDigit = true ∧ y4.isDigit = true ∧
        m1.isDigit = true ∧ m2.isDigit = true ∧ d1.isDigit = true ∧ d2.isDigit = true) ∧
    (∀ v, v.isNumber = false → v.isBoolean = false →
      (∀ s, v = .str s → matchesDate s = false) → inferColumn (some v) = .rich_text) ∧
    missingProperties [("Name", "title"), ("score", "number")]
        [("callerName", .str "Bob"), ("score", .num (.fin false 42 0)), ("active", .bool true),
          ("seen", .str "2024-01-15"), ("note", .str "x")]
      = ["active", "seen", "note"] ∧
    updateProperties
        [("callerName", .str "Bob"), ("score", .num (.fin false 42 0)), ("active", .bool true),
          ("seen", .str "2024-01-15"), ("note", .str "x")]
        ["active", "seen", "note"]
      = [("active", .checkbox), ("seen", .date), ("note", .rich_text)] := by
  have hfold := updateProperties_foldl (fun k => inferColumn (getProp payload k))
    (missingProperties schema payload) [] (by simp [objectKeys])
  refine ⟨hfold.1, ?_, ?_, fun _ => rfl, fun _ => rfl, ?_, ?_, by decide, by decide⟩
  · intro k
    have := hfold.2.1 k
    simpa [objectKeys] using this
  · intro k hk hp
    have hk1 := (mem_missingProperties schema payload k).mp hk
    obtain ⟨v, hv, _⟩ := exists_getProp_of_mem_keys payload k hk1.1
    refine ⟨v, hv, ?_⟩
    have := hfold.2.2.1 k hk hp
    rw [← hv]
    exact this
  · intro s
    rw [← matchesDate_iff]
    by_cases h : matchesDate s = true
    · simp [inferColumn, h]
    · simp [inferColumn, h]
  · intro v hnum hbool hstr
    cases v with
    | null => rfl
    | bool b => simp [JValue.isBoolean] at hbool
    | num n => simp [JValue.isNumber] at hnum
    | str s => simp [inferColumn, hstr s rfl]
    | arr items => rfl
    | obj members => rfl

/-- C5, the code at the failing input: for the payload
`{"__proto__": "x", "note": "n"}` on the schema `{Name: title}` the missing
keys are `__proto__` and `note`, and the patch that is sent has the single
entry `note`: the assignment `updateProperties["__proto__"] = ...` has set the
prototype of the object and created no property. -/
theorem patch_body_drops_proto_key :
    missingProperties [("Name", "title")] [("__proto__", .str "x"), ("note", .str "n")]
      = ["__proto__", "note"] ∧
    updateProperties [("__proto__", .str "x"), ("note", .str "n")] ["__proto__", "note"]
      = [("note", .rich_text)] ∧
    (fetchHandler referenceEngine
      (scriptedRemote
        [.ok ⟨200, "", .ok [("Name", "title")]⟩,
         .ok ⟨200, "", .error "not a database"⟩,
         .ok ⟨200, "", .ok [("Name", "title"), ("note", "rich_text")]⟩,
         .ok ⟨200, "", .error "not a database"⟩])
      "2024-01-15T10:00:00.000Z"
      ⟨"POST", .ok [("__proto__", .str "x"), ("note", .str "n")]⟩
      ⟨some "secret", some "test-database-id-12345"⟩).trace
    = [.getDatabase "test-database-id-12345" "secret",
       .patchDatabase "test-database-id-12345" "secret" [("note", .rich_text)],
       .getDatabase "test-database-id-12345" "secret",
       .createPage "secret" "test-database-id-12345"
         [("Name", .title (.str "Request from 2024-01-15T10:00:00.000Z")),
          ("note", .rich_text (toCodeUnits "n"))]] :=
  ⟨by decide, by decide, rfl⟩

/-! ## C6 and C7: identifier normalisation -/

theorem char_le_iff_toNat (a b : Char) : a ≤ b ↔ a.toNat ≤ b.toNat := by
  rw [Char.le_def, UInt32.le_def, BitVec.le_def]
  rfl

theorem toNat_ofNat_of_lt (n : Nat) (h : n < 55296) : (Char.ofNat n).toNat = n := by
  have hv : n.isValidChar := Or.inl h
  unfold Char.ofNat
  rw [dif_pos hv]
  rfl

theorem toNat_toUpper (c : Char) :
    c.toUpper.toNat = if 97 ≤ c.toNat ∧ c.toNat ≤ 122 then c.toNat - 32 else c.toNat := by
  unfold Char.toUpper
  by_cases h : c.toNat ≥ 97 ∧ c.toNat ≤ 122
  · have := toNat_ofNat_of_lt (c.toNat - 32) (by omega)
    simpa [h] using this
  · simp [h]

/-- The class `[^a-f0-9]` with the flag `i` removes exactly the characters
outside `[0-9a-fA-F]`. -/
theorem keptByHexFilter_eq_isHexChar (c : Char) : keptByHexFilter c = isHexChar c := by
  unfold keptByHexFilter isHexChar
  simp only [char_le_iff_toNat, toNat_toUpper]
  have hA : ('A' : Char).toNat = 65 := rfl
  have hF : ('F' : Char).toNat = 70 := rfl
  have ha : ('a' : Char).toNat = 97 := rfl
  have hf : ('f' : Char).toNat = 102 := rfl
  have h0 : ('0' : Char).toNat = 48 := rfl
  have h9 : ('9' : Char).toNat = 57 := rfl
  rw [hA, hF, ha, hf, h0, h9]
  rw [Bool.eq_iff_iff]
  simp only [Bool.or_eq_true, decide_eq_true_eq]
  split_ifs with h <;> omega

theorem isHexChar_ne_hyphen (c : Char) (h : isHexChar c = true) : c ≠ '-' := by
  intro hc
  subst hc
  revert h
  decide

/-- The dashed form of a list of 32 hex digits: it agrees with the reference
slices, has 36 characters in the shape 8-4-4-4-12, and gives the digits back
when the hyphens, or the characters that are no hex digits, are removed. -/
theorem dashed_of_length_32 (l : List Char) (hl : l.length = 32)
    (hh : ∀ c ∈ l, isHexChar c = true) :
    substring ⟨l⟩ 0 8 ++ "-" ++ substring ⟨l⟩ 8 12 ++ "-" ++ substring ⟨l⟩ 12 16 ++ "-"
        ++ substring ⟨l⟩ 16 20 ++ "-" ++ substringFrom ⟨l⟩ 20
      = slice ⟨l⟩ 0 8 ++ "-" ++ slice ⟨l⟩ 8 12 ++ "-" ++ slice ⟨l⟩ 12 16 ++ "-"
        ++ slice ⟨l⟩ 16 20 ++ "-" ++ slice ⟨l⟩ 20 32 ∧
    (substring ⟨l⟩ 0 8 ++ "-" ++ substring ⟨l⟩ 8 12 ++ "-" ++ substring ⟨l⟩ 12 16 ++ "-"
        ++ substring ⟨l⟩ 16 20 ++ "-" ++ substringFrom ⟨l⟩ 20).data.length = 36 ∧
    isDashedForm (substring ⟨l⟩ 0 8 ++ "-" ++ substring ⟨l⟩ 8 12 ++ "-"
        ++ substring ⟨l⟩ 12 16 ++ "-" ++ substring ⟨l⟩ 16 20 ++ "-" ++ substringFrom ⟨l⟩ 20)
      = true ∧
    (substring ⟨l⟩ 0 8 ++ "-" ++ substring ⟨l⟩ 8 12 ++ "-" ++ substring ⟨l⟩ 12 16 ++ "-"
        ++ substring ⟨l⟩ 16 20 ++ "-" ++ substringFrom ⟨l⟩ 20).data.filter (fun c => c != '-')
      = l ∧
    (substring ⟨l⟩ 0 8 ++ "-" ++ substring ⟨l⟩ 8 12 ++ "-" ++ substring ⟨l⟩ 12 16 ++ "-"
        ++ substring ⟨l⟩ 16 20 ++ "-" ++ substringFrom ⟨l⟩ 20).data.filter keptByHexFilter
      = l := by
  have hk : keptByHexFilter = isHexChar := funext keptByHexFilter_eq_isHexChar
  have hne : ∀ c ∈ l, (c != '-') = true := fun c hc => by
    simpa using isHexChar_ne_hyphen c (hh c hc)
  have hhy : isHexChar '-' = false := by decide
  iterate 32 (rcases l with _ | ⟨_, l⟩; · simp at hl)
  rcases l with _ | ⟨_, l⟩
  · simp only [List.mem_cons, forall_eq_or_imp] at hh hne
    refine ⟨?_, ?_, ?_, ?_, ?_⟩
    · simp [substring, substringFrom, slice]
    · simp [substring, substringFrom]
    · simp [isDashedForm, substring, substringFrom, hh]
    · simp [substring, substringFrom, List.filter_cons, hne]
    · rw [hk]
      simp [substring, substringFrom, List.filter_cons, hh, hhy]
  · simp at hl

theorem normalizeDbId_unfold (s : String) :
    normalizeDbId s =
      if (hexOnly s).data.length = 32 then
        substring (hexOnly s) 0 8 ++ "-" ++ substring (hexOnly s) 8 12 ++ "-"
          ++ substring (hexOnly s) 12 16 ++ "-" ++ substring (hexOnly s) 16 20 ++ "-"
          ++ substringFrom (hexOnly s) 20
      else s := by
  have hk : keptByHexFilter = isHexChar := funext keptByHexFilter_eq_isHexChar
  simp only [normalizeDbId, hexOnly, hk, String.length]

theorem hexOnly_all_hex (s : String) : ∀ c ∈ (hexOnly s).data, isHexChar c = true := by
  intro c hc
  simp only [hexOnly, List.mem_filter] at hc
  exact hc.2

/-- C6: identifier normalisation equals its reference definition. With `h` the
input stripped of the characters outside `[0-9a-fA-F]`: if `h` has exactly 32
characters the result is `h[0..8]-h[8..12]-h[12..16]-h[16..20]-h[20..32]`, of
36 characters in the shape 8-4-4-4-12, and removing the hyphens gives `h` back;
otherwise the result is the input. In particular a string of 32 hex digits is
mapped to a string of the dashed shape. -/
theorem normalizeDbId_eq_reference (s : String) :
    normalizeDbId s = normalizeReference s ∧
    ((hexOnly s).data.length = 32 →
      normalizeDbId s
        = slice (hexOnly s) 0 8 ++ "-" ++ slice (hexOnly s) 8 12 ++ "-"
          ++ slice (hexOnly s) 12 16 ++ "-" ++ slice (hexOnly s) 16 20 ++ "-"
          ++ slice (hexOnly s) 20 32 ∧
      (normalizeDbId s).data.length = 36 ∧
      isDashedForm (normalizeDbId s) = true ∧
      (normalizeDbId s).data.filter (fun c => c != '-') = (hexOnly s).data) ∧
    ((hexOnly s).data.length ≠ 32 → normalizeDbId s = s) ∧
    (s.data.length = 32 → (∀ c ∈ s.data, isHexChar c = true) →
      isDashedForm (normalizeDbId s) = true) := by
  have hcase : (hexOnly s).data.length = 32 →
      normalizeDbId s
        = slice (hexOnly s) 0 8 ++ "-" ++ slice (hexOnly s) 8 12 ++ "-"
          ++ slice (hexOnly s) 12 16 ++ "-" ++ slice (hexOnly s) 16 20 ++ "-"
          ++ slice (hexOnly s) 20 32 ∧
      (normalizeDbId s).data.length = 36 ∧
      isDashedForm (normalizeDbId s) = true ∧
      (normalizeDbId s).data.filter (fun c => c != '-') = (hexOnly s).data := by
    intro hlen
    have hd := dashed_of_length_32 (hexOnly s).data hlen (hexOnly_all_hex s)
    rw [normalizeDbId_unfold, if_pos hlen]
    exact ⟨hd.1, hd.2.1, hd.2.2.1, hd.2.2.2.1⟩
  refine ⟨?_, hcase, ?_, ?_⟩
  · by_cases hlen : (hexOnly s).data.length = 32
    · rw [(hcase hlen).1]
      simp only [normalizeReference, if_pos hlen]
    · rw [normalizeDbId_unfold, if_neg hlen]
      simp only [normalizeReference, if_neg hlen]
  · intro hlen
    rw [normalizeDbId_unfold, if_neg hlen]
  · intro hlen hall
    have hs : (hexOnly s).data = s.data := by
      simp only [hexOnly]
      exact List.filter_eq_self.mpr hall
    exact (hcase (by rw [hs]; exact hlen)).2.2.1

/-- C6, witness: the identifier `0123456789abcdef0123456789ABCDEF` is mapped to
`01234567-89ab-cdef-0123-456789ABCDEF`, a string of the dashed shape. -/
theorem normalizeDbId_eq_reference_witness :
    (hexOnly "0123456789abcdef0123456789ABCDEF").data.length = 32 ∧
    normalizeDbId "0123456789abcdef0123456789ABCDEF" = "01234567-89ab-cdef-0123-456789ABCDEF" ∧
    isDashedForm (normalizeDbId "0123456789abcdef0123456789ABCDEF") = true :=
  ⟨by decide, by decide,
    ((normalizeDbId_eq_reference "0123456789abcdef0123456789ABCDEF").2.1 (by decide)).2.2.1⟩

/-- C7: identifier normalisation is idempotent. -/
theorem normalizeDbId_idempotent (s : String) :
    normalizeDbId (normalizeDbId s) = normalizeDbId s := by
  by_cases hlen : (hexOnly s).data.length = 32
  · have hd := dashed_of_length_32 (hexOnly s).data hlen (hexOnly_all_hex s)
    have hk : keptByHexFilter = isHexChar := funext keptByHexFilter_eq_isHexChar
    have hstep : normalizeDbId s
        = substring (hexOnly s) 0 8 ++ "-" ++ substring (hexOnly s) 8 12 ++ "-"
          ++ substring (hexOnly s) 12 16 ++ "-" ++ substring (hexOnly s) 16 20 ++ "-"
          ++ substringFrom (hexOnly s) 20 := by
      rw [normalizeDbId_unfold, if_pos hlen]
    have hhex : hexOnly (normalizeDbId s) = hexOnly s := by
      rw [hstep]
      have h5 := hd.2.2.2.2
      rw [hk] at h5
      simp only [hexOnly]
      exact congrArg String.mk h5
    rw [normalizeDbId_unfold (normalizeDbId s), hhex, if_pos hlen]
    exact hstep.symm
  · have hs : normalizeDbId s = s := by
      rw [normalizeDbId_unfold, if_neg hlen]
    rw [hs, hs]

/-! ## C8: projection onto a date column -/

theorem mapField_date (eng : Engine) (schema : SchemaObject) (key : String) (v : JValue)
    (hkey : key ≠ "callerName") (hty : getProp schema.own key = some "date") :
    mapField eng schema [] (key, v) =
      match v with
      | .str s => if matchesDate s then some (assignProp [] key (.date s)) else some []
      | _ => some [] := by
  simp only [mapField, hkey, if_false, schemaGet_of_own schema key "date" hty, projectValue,
    switchOnType, show ¬ (some "date" = some "rich_text") by decide,
    show ¬ (some "date" = some "number") by decide,
    show ¬ (some "date" = some "checkbox") by decide, if_true]
  cases v with
  | str s => by_cases h : matchesDate s = true <;> simp [h]
  | null => rfl
  | bool b => rfl
  | num n => rfl
  | arr items => rfl
  | obj members => rfl

/-- C8: for a payload entry `key: v` routed to a column of type date (the key is
not `callerName`, not `__proto__`, and the column is not the title column), in
a payload whose values all have a string form, the outgoing row holds
`{date: {start: v}}`, with `v` unchanged, if and only if `v` is a string that
begins with four digits, `-`, two digits, `-`, two digits; for every other
value (another string, a number, a boolean) the key is absent from the row. -/
theorem date_projection (eng : Engine) (schema : SchemaObject) (title : String)
    (payload : Payload) (now key : String) (v : JValue) (hn : (objectKeys payload).Nodup)
    (hm : (key, v) ∈ payload) (hkey : key ≠ "callerName") (htitle : key ≠ title)
    (hproto : key ≠ "__proto__") (hty : getProp schema.own key = some "date")
    (hconv : ∀ e ∈ payload, convertible e.2 = true) :
    ∃ row, buildProperties eng schema title payload now = some row ∧
      ((∃ s, v = .str s ∧ getProp row key = some (.date s)) ↔
        ∃ s y1 y2 y3 y4 m1 m2 d1 d2 rest, v = .str s ∧
          s.data = y1 :: y2 :: y3 :: y4 :: '-' :: m1 :: m2 :: '-' :: d1 :: d2 :: rest ∧
          y1.isDigit = true ∧ y2.isDigit = true ∧ y3.isDigit = true ∧ y4.isDigit = true ∧
          m1.isDigit = true ∧ m2.isDigit = true ∧ d1.isDigit = true ∧ d2.isDigit = true) ∧
      ((¬ ∃ s y1 y2 y3 y4 m1 m2 d1 d2 rest, v = .str s ∧
          s.data = y1 :: y2 :: y3 :: y4 :: '-' :: m1 :: m2 :: '-' :: d1 :: d2 :: rest ∧
          y1.isDigit = true ∧ y2.isDigit = true ∧ y3.isDigit = true ∧ y4.isDigit = true ∧
          m1.isDigit = true ∧ m2.isDigit = true ∧ d1.isDigit = true ∧ d2.isDigit = true) →
        getProp row key = none) ∧
      (∀ n, v = .num n → getProp row key = none) ∧
      (∀ b, v = .bool b → getProp row key = none) ∧
      (∀ s, v = .str s → matchesDate s = false → getProp row key = none) := by
  obtain ⟨row, hrow⟩ := buildProperties_isSome eng schema title payload now hconv
  obtain ⟨r0, hr0, hget⟩ :=
    getProp_buildProperties eng schema title payload now key v row hn hm htitle hrow
  rw [mapField_date eng schema key v hkey hty] at hr0
  have hmatch : ∀ s, v = .str s → matchesDate s = true → getProp row key = some (.date s) := by
    intro s hv hs
    subst hv
    simp only [hs, if_true, Option.some.injEq] at hr0
    rw [hget, ← hr0]
    exact getProp_assignProp_same [] key _ hproto
  have hnomatch : ∀ s, v = .str s → matchesDate s = false → getProp row key = none := by
    intro s hv hs
    subst hv
    simp only [hs, Bool.false_eq_true, if_false, Option.some.injEq] at hr0
    rw [hget, ← hr0]
    rfl
  have hother : v.isString = false → getProp row key = none := by
    intro hv
    cases v with
    | str s => simp [JValue.isString] at hv
    | null => simp only [Option.some.injEq] at hr0; rw [hget, ← hr0]; rfl
    | bool b => simp only [Option.some.injEq] at hr0; rw [hget, ← hr0]; rfl
    | num n => simp only [Option.some.injEq] at hr0; rw [hget, ← hr0]; rfl
    | arr items => simp only [Option.some.injEq] at hr0; rw [hget, ← hr0]; rfl
    | obj members => simp only [Option.some.injEq] at hr0; rw [hget, ← hr0]; rfl
  have hshape : (∃ s y1 y2 y3 y4 m1 m2 d1 d2 rest, v = .str s ∧
        s.data = y1 :: y2 :: y3 :: y4 :: '-' :: m1 :: m2 :: '-' :: d1 :: d2 :: rest ∧
        y1.isDigit = true ∧ y2.isDigit = true ∧ y3.isDigit = true ∧ y4.isDigit = true ∧
        m1.isDigit = true ∧ m2.isDigit = true ∧ d1.isDigit = true ∧ d2.isDigit = true) ↔
      ∃ s, v = .str s ∧ matchesDate s = true := by
    constructor
    · rintro ⟨s, y1, y2, y3, y4, m1, m2, d1, d2, rest, hv, hs⟩
      exact ⟨s, hv, (matchesDate_iff s).mpr ⟨y1, y2, y3, y4, m1, m2, d1, d2, rest, hs⟩⟩
    · rintro ⟨s, hv, hs⟩
      obtain ⟨y1, y2, y3, y4, m1, m2, d1, d2, rest, hd⟩ := (matchesDate_iff s).mp hs
      exact ⟨s, y1, y2, y3, y4, m1, m2, d1, d2, rest, hv, hd⟩
  refine ⟨row, hrow, ?_, ?_, ?_, ?_, hnomatch⟩
  · rw [hshape]
    constructor
    · rintro ⟨s, hv, hheld⟩
      refine ⟨s, hv, ?_⟩
      by_cases h : matchesDate s = true
      · exact h
      · rw [hnomatch s hv (by simpa using h)] at hheld
        simp at hheld
    · rintro ⟨s, hv, hs⟩
      exact ⟨s, hv, hmatch s hv hs⟩
  · rw [hshape]
    intro hno
    cases hv : v with
    | str s =>
      by_cases h : matchesDate s = true
      · exact absurd ⟨s, hv, h⟩ hno
      · exact hnomatch s hv (by simpa using h)
    | null => exact hother (by rw [hv]; rfl)
    | bool b => exact hother (by rw [hv]; rfl)
    | num n => exact hother (by rw [hv]; rfl)
    | arr items => exact hother (by rw [hv]; rfl)
    | obj members => exact hother (by rw [hv]; rfl)
  · intro n hv
    exact hother (by rw [hv]; rfl)
  · intro b hv
    exact hother (by rw [hv]; rfl)

/-- C8, witness: the payload `{seen: "2024-01-15"}` on a schema with the date
column `seen` gives a row holding `{date: {start: "2024-01-15"}}`. -/
theorem date_projection_witness :
    (objectKeys [("seen", JValue.str "2024-01-15")]).Nodup ∧
    "seen" ≠ "callerName" ∧ "seen" ≠ "Name" ∧ "seen" ≠ "__proto__" ∧
    buildProperties referenceEngine ⟨[("Name", "title"), ("seen", "date")], none⟩ "Name"
        [("seen", .str "2024-01-15")] "2024-01-15T10:00:00.000Z"
      = some [("Name", .title (.str "Request from 2024-01-15T10:00:00.000Z")),
          ("seen", .date "2024-01-15")] ∧
    ∃ row, buildProperties referenceEngine ⟨[("Name", "title"), ("seen", "date")], none⟩
        "Name" [("seen", .str "2024-01-15")] "2024-01-15T10:00:00.000Z" = some row ∧
      ∃ s, JValue.str "2024-01-15" = .str s ∧ getProp row "seen" = some (.date s) :=
  ⟨by decide, by decide, by decide, by decide, rfl,
    match date_projection referenceEngine ⟨[("Name", "title"), ("seen", "date")], none⟩
      "Name" [("seen", .str "2024-01-15")] "2024-01-15T10:00:00.000Z" "seen"
      (.str "2024-01-15") (by decide) (by simp) (by decide) (by decide) (by decide) rfl
      (by simp [convertible, jsToString]) with
    | ⟨row, hrow, hiff, _⟩ =>
      ⟨row, hrow, hiff.mpr ⟨"2024-01-15", '2', '0', '2', '4', '0', '1', '1', '5', [], rfl,
        rfl, by decide, by decide, by decide, by decide, by decide, by decide, by decide,
        by decide⟩⟩⟩

/-! ## C9 and C10: errors before the row -/

theorem findTitleProperty_eq_none (S : Schema) (h : ∀ e ∈ S, e.2 ≠ "title") :
    findTitleProperty S = none := by
  unfold findTitleProperty
  rw [Option.map_eq_none', List.find?_eq_none]
  intro e he
  simpa using h e he

/-- C9, counterexample: the schema read is answered with status 304; the
handler does not answer 304, it answers 500 after the one call (the `Response`
constructor rejects a body with that status and the outer `catch` answers). -/
theorem schema_read_status_304_answers_500 :
    (fetchHandler referenceEngine
      (scriptedRemote [.ok ⟨304, "not modified", .error "not a database"⟩])
      "2024-01-15T10:00:00.000Z"
      ⟨"POST", .ok [("note", .str "x")]⟩
      ⟨some "secret", some "test-database-id-12345"⟩).response.status = 500 ∧
    (fetchHandler referenceEngine
      (scriptedRemote [.ok ⟨304, "not modified", .error "not a database"⟩])
      "2024-01-15T10:00:00.000Z"
      ⟨"POST", .ok [("note", .str "x")]⟩
      ⟨some "secret", some "test-database-id-12345"⟩).trace
      = [.getDatabase "test-database-id-12345" "secret"] :=
  ⟨rfl, rfl⟩

/-- C9, amended: on a POST request with credentials and a parsed body, when the
initial schema read is answered with a non-success status `s` and body `b`, the
handler answers with status `s` and a body ending with `b` if `s` is a status
a response with a body may carry (200 to 599 and not 204, 205 or 304), and
with status 500 otherwise, after that one remote call; when the schema read
has no column of type title the handler answers 400 after that one call. In
all these cases no patch and no page creation is issued. -/
theorem schema_read_error_is_fatal (eng : Engine) (remote : Remote) (now : String)
    (request : Request) (env : Env) (payload : Payload) (r1 : RemoteResponse)
    (hmethod : request.method = "POST") (htoken : isSet env.NOTION_TOKEN = true)
    (hdb : isSet env.NOTION_DB_ID = true) (hjson : request.json = .ok payload)
    (h1 : remote [.getDatabase (normalizeDbId (env.NOTION_DB_ID.getD ""))
      (env.NOTION_TOKEN.getD "")] = .ok r1) :
    (r1.ok = false →
      (200 ≤ r1.status ∧ r1.status ≤ 599 ∧ r1.status ≠ 204 ∧ r1.status ≠ 205 ∧
        r1.status ≠ 304) →
      fetchHandler eng remote now request env
        = ⟨⟨"Database access error (" ++ toString r1.status ++ "): " ++ r1.text, r1.status⟩,
            [.getDatabase (normalizeDbId (env.NOTION_DB_ID.getD ""))
              (env.NOTION_TOKEN.getD "")]⟩) ∧
    (r1.ok = false →
      ¬ (200 ≤ r1.status ∧ r1.status ≤ 599 ∧ r1.status ≠ 204 ∧ r1.status ≠ 205 ∧
        r1.status ≠ 304) →
      (fetchHandler eng remote now request env).response.status = 500 ∧
      (fetchHandler eng remote now request env).trace
        = [.getDatabase (normalizeDbId (env.NOTION_DB_ID.getD ""))
            (env.NOTION_TOKEN.getD "")]) ∧
    (∀ S, r1.ok = true → r1.schema = .ok S → (∀ e ∈ S, e.2 ≠ "title") →
      fetchHandler eng remote now request env
        = ⟨⟨"No title property found in database schema", 400⟩,
            [.getDatabase (normalizeDbId (env.NOTION_DB_ID.getD ""))
              (env.NOTION_TOKEN.getD "")]⟩) ∧
    ((r1.ok = false ∨ ∃ S, r1.ok = true ∧ r1.schema = .ok S ∧ ∀ e ∈ S, e.2 ≠ "title") →
      (fetchHandler eng remote now request env).trace.length = 1 ∧
      ∀ c ∈ (fetchHandler eng remote now request env).trace,
        c.isPatch = false ∧ c.isCreate = false) := by
  have hfail : r1.ok = false →
      fetchHandler eng remote now request env
        = ⟨makeResponse eng
            ("Database access error (" ++ toString r1.status ++ "): " ++ r1.text) r1.status,
            [.getDatabase (normalizeDbId (env.NOTION_DB_ID.getD ""))
              (env.NOTION_TOKEN.getD "")]⟩ := by
    intro hok
    unfold fetchHandler
    simp only [hmethod, htoken, hdb, hjson, h1, hok, ne_eq, not_true_eq_false, if_false,
      if_true, Bool.not_true, Bool.not_false, Bool.false_eq_true]
  have hnotitle : ∀ S, r1.ok = true → r1.schema = .ok S → (∀ e ∈ S, e.2 ≠ "title") →
      fetchHandler eng remote now request env
        = ⟨⟨"No title property found in database schema", 400⟩,
            [.getDatabase (normalizeDbId (env.NOTION_DB_ID.getD ""))
              (env.NOTION_TOKEN.getD "")]⟩ := by
    intro S hok hs hno
    unfold fetchHandler
    simp only [hmethod, htoken, hdb, hjson, h1, hok, hs, findTitleProperty_eq_none S hno, ne_eq,
      not_true_eq_false, if_false, Bool.not_true, Bool.false_eq_true]
  refine ⟨?_, ?_, hnotitle, ?_⟩
  · intro hok hvalid
    rw [hfail hok]
    have h1 : ¬ (r1.status < 200 ∨ 599 < r1.status) := by omega
    have h2 : ¬ (r1.status = 204 ∨ r1.status = 205 ∨ r1.status = 304) := by omega
    simp only [makeResponse, h1, h2, if_false]
  · intro hok hinvalid
    rw [hfail hok]
    refine ⟨?_, rfl⟩
    unfold makeResponse
    split_ifs with h1 h2
    · rfl
    · rfl
    · exact absurd (by omega) hinvalid
  · rintro (hok | ⟨S, hok, hs, hno⟩)
    · rw [hfail hok]
      simp [RemoteCall.isPatch, RemoteCall.isCreate]
    · rw [hnotitle S hok hs hno]
      simp [RemoteCall.isPatch, RemoteCall.isCreate]

/-- C9, witness: the schema read is answered with status 404 and the body
`not found`; the handler answers 404 with that body after the one call. -/
theorem schema_read_error_is_fatal_witness :
    fetchHandler referenceEngine
      (scriptedRemote [.ok ⟨404, "not found", .error "not a database"⟩])
      "2024-01-15T10:00:00.000Z"
      ⟨"POST", .ok [("note", .str "x")]⟩
      ⟨some "secret", some "test-database-id-12345"⟩
    = ⟨⟨"Database access error (404): not found", 404⟩,
        [.getDatabase "test-database-id-12345" "secret"]⟩ :=
  (schema_read_error_is_fatal referenceEngine
    (scriptedRemote [.ok ⟨404, "not found", .error "not a database"⟩])
    "2024-01-15T10:00:00.000Z"
    ⟨"POST", .ok [("note", .str "x")]⟩
    ⟨some "secret", some "test-database-id-12345"⟩
    [("note", .str "x")] ⟨404, "not found", .error "not a database"⟩
    rfl rfl rfl rfl rfl).1 rfl (by decide)

/-- C10: a request whose method is not POST is answered with status 405 and
the body `Method Not Allowed`, and no remote call is issued, whatever its body
and the environment. -/
theorem method_not_allowed (eng : Engine) (remote : Remote) (now : String)
    (request : Request) (env : Env) (h : request.method ≠ "POST") :
    fetchHandler eng remote now request env = ⟨⟨"Method Not Allowed", 405⟩, []⟩ := by
  unfold fetchHandler
  rw [if_pos h]

/-- C10, witness: a GET request is answered with 405 and no remote call. -/
theorem method_not_allowed_witness :
    "GET" ≠ "POST" ∧
    fetchHandler referenceEngine (scriptedRemote []) "2024-01-15T10:00:00.000Z"
      ⟨"GET", .error "Unexpected end of JSON input"⟩
      ⟨some "secret_test_token_12345", some "test-database-id-12345"⟩
    = ⟨⟨"Method Not Allowed", 405⟩, []⟩ :=
  ⟨by decide, method_not_allowed referenceEngine (scriptedRemote [])
    "2024-01-15T10:00:00.000Z"
    ⟨"GET", .error "Unexpected end of JSON input"⟩
    ⟨some "secret_test_token_12345", some "test-database-id-12345"⟩ (by decide)⟩

/-! ## C11: text projection and the select downgrade -/

theorem firstUnits_eq_take (n : Nat) (us : List Nat) : firstUnits n us = us.take n := by
  induction n generalizing us with
  | zero => simp [firstUnits]
  | succ n ih =>
    cases us with
    | nil => simp [firstUnits]
    | cons u rest => simp [firstUnits, ih]

theorem textFragment_eq_reference (v : JValue) (text : String) (h : jsToString v = some text) :
    textFragment v = some (textProjectionReference text) := by
  simp [textFragment, textProjectionReference, firstUnits_eq_take, h]

/-- The branches `rich_text`, `select`, `multi_select` and `default` of the
switch all assign the text fragment. -/
theorem projectValue_text (eng : Engine) (type : Option String) (p : RowProperties)
    (key : String) (v : JValue)
    (htype : type ≠ some "number" ∧ type ≠ some "checkbox" ∧ type ≠ some "date") :
    projectValue eng type p key v = (textFragment v).map (assignProp p key) := by
  have hsw : switchOnType eng type p key v = (textFragment v).map (assignProp p key) := by
    unfold switchOnType
    simp only [htype.1, htype.2.1, htype.2.2, if_false]
    split_ifs <;> rfl
  unfold projectValue
  rw [hsw]
  cases textFragment v <;> rfl

/-- The text fragment cuts between the two code units of a character outside
the Basic Multilingual Plane: 1999 letters `a` followed by U+1F600 give 2000
code units, the last one the high surrogate. -/
theorem textFragment_cuts_code_units :
    textFragment (.str ⟨List.replicate 1999 'a' ++ [Char.ofNat 0x1F600]⟩)
      = some (.rich_text (List.replicate 1999 97 ++ [0xD83D])) := by
  have hfold : ∀ (n : Nat) (rest : List Char),
      (List.replicate n 'a' ++ rest).foldr (fun c acc => codeUnits c ++ acc) []
        = List.replicate n 97 ++ rest.foldr (fun c acc => codeUnits c ++ acc) [] := by
    intro n rest
    induction n with
    | zero => simp
    | succ n ih =>
      rw [List.replicate_succ, List.cons_append, List.foldr_cons, ih, List.replicate_succ]
      rfl
  have hunits : toCodeUnits ⟨List.replicate 1999 'a' ++ [Char.ofNat 0x1F600]⟩
      = List.replicate 1999 97 ++ [0xD83D, 0xDE00] := by
    unfold toCodeUnits
    rw [hfold]
    rfl
  simp only [textFragment, jsToString, Option.map_some', hunits]
  have hlen : (List.replicate 1999 97 : List Nat).length = 1999 := List.length_replicate _ _
  rw [List.take_append_eq_append_take, List.take_of_length_le (by rw [hlen]; decide), hlen]
  rfl

/-- C11: for a payload entry `key: v` routed to a column of type rich_text,
select, multi_select or any type other than number, checkbox and date (the key
is not `callerName`, not `__proto__`, and the column is not the title column),
in a payload whose values all have a string form, the outgoing row holds the
text fragment of the specification: its content is the first 2000 characters
(UTF-16 code units, as counted by `length`) of `String(v)`, so it has at most
2000 of them and is `String(v)` when that has at most 2000; a select or
multi_select column holds exactly the fragment a rich_text column would hold. -/
theorem text_projection (eng : Engine) (schema : SchemaObject) (title : String)
    (payload : Payload) (now key type : String) (v : JValue)
    (hn : (objectKeys payload).Nodup) (hm : (key, v) ∈ payload) (hkey : key ≠ "callerName")
    (htitle : key ≠ title) (hproto : key ≠ "__proto__")
    (hty : getProp schema.own key = some type)
    (htype : type ≠ "number" ∧ type ≠ "checkbox" ∧ type ≠ "date")
    (hconv : ∀ e ∈ payload, convertible e.2 = true) :
    ∃ row text, jsToString v = some text ∧
      buildProperties eng schema title payload now = some row ∧
      getProp row key = some (textProjectionReference text) ∧
      (∃ content, textProjectionReference text = .rich_text content ∧
        content.length ≤ 2000 ∧
        content.length = min 2000 (toCodeUnits text).length ∧
        content <+: toCodeUnits text ∧
        ((toCodeUnits text).length ≤ 2000 → content = toCodeUnits text)) ∧
      (∀ schema2 : SchemaObject, getProp schema2.own key = some "rich_text" →
        ∃ row2, buildProperties eng schema2 title payload now = some row2 ∧
          getProp row2 key = getProp row key) := by
  have hv : convertible v = true := hconv (key, v) hm
  obtain ⟨text, htext⟩ := Option.isSome_iff_exists.mp hv
  have hrowOf : ∀ (sch : SchemaObject) (ty : String), getProp sch.own key = some ty →
      (ty ≠ "number" ∧ ty ≠ "checkbox" ∧ ty ≠ "date") →
      ∃ row, buildProperties eng sch title payload now = some row ∧
        getProp row key = some (textProjectionReference text) := by
    intro sch ty hsch hne
    obtain ⟨row, hrow⟩ := buildProperties_isSome eng sch title payload now hconv
    obtain ⟨r0, hr0, hget⟩ :=
      getProp_buildProperties eng sch title payload now key v row hn hm htitle hrow
    have hne2 : (some ty : Option String) ≠ some "number" ∧ (some ty : Option String)
        ≠ some "checkbox" ∧ (some ty : Option String) ≠ some "date" :=
      ⟨fun h => hne.1 (Option.some.inj h), fun h => hne.2.1 (Option.some.inj h),
        fun h => hne.2.2 (Option.some.inj h)⟩
    simp only [mapField, hkey, if_false, schemaGet_of_own sch key ty hsch,
      projectValue_text eng (some ty) [] key v hne2,
      textFragment_eq_reference v text htext, Option.map_some', Option.some.injEq] at hr0
    refine ⟨row, hrow, ?_⟩
    rw [hget, ← hr0]
    exact getProp_assignProp_same [] key _ hproto
  obtain ⟨row, hrow, hheld⟩ := hrowOf schema type hty htype
  refine ⟨row, text, htext, hrow, hheld, ?_, ?_⟩
  · refine ⟨(toCodeUnits text).take 2000, ?_, ?_, ?_, ?_, ?_⟩
    · simp [textProjectionReference, firstUnits_eq_take]
    · simp [List.length_take]
    · simp [List.length_take]
    · exact List.take_prefix 2000 (toCodeUnits text)
    · intro hlen
      rw [List.take_of_length_le hlen]
  · intro schema2 h2
    obtain ⟨row2, hrow2, hheld2⟩ := hrowOf schema2 "rich_text" h2
      ⟨by decide, by decide, by decide⟩
    exact ⟨row2, hrow2, by rw [hheld2, hheld]⟩

/-- C11, witness: the payload `{status: "open"}` on a schema with the select
column `status` gives a row holding the text fragment with content `open`. -/
theorem text_projection_witness :
    (objectKeys [("status", JValue.str "open")]).Nodup ∧
    "status" ≠ "callerName" ∧ "status" ≠ "Name" ∧ "status" ≠ "__proto__" ∧
    buildProperties referenceEngine ⟨[("Name", "title"), ("status", "select")], none⟩ "Name"
        [("status", .str "open")] "2024-01-15T10:00:00.000Z"
      = some [("Name", .title (.str "Request from 2024-01-15T10:00:00.000Z")),
          ("status", .rich_text [111, 112, 101, 110])] ∧
    ∃ row text, jsToString (JValue.str "open") = some text ∧
      buildProperties referenceEngine ⟨[("Name", "title"), ("status", "select")], none⟩
        "Name" [("status", .str "open")] "2024-01-15T10:00:00.000Z" = some row ∧
      getProp row "status" = some (textProjectionReference text) :=
  ⟨by decide, by decide, by decide, by decide, rfl,
    match text_projection referenceEngine ⟨[("Name", "title"), ("status", "select")], none⟩
      "Name" [("status", .str "open")] "2024-01-15T10:00:00.000Z" "status" "select"
      (.str "open") (by decide) (by simp) (by decide) (by decide) (by decide) rfl
      ⟨by decide, by decide, by decide⟩ (by simp [convertible, jsToString]) with
    | ⟨row, text, htext, hrow, hheld, _⟩ => ⟨row, text, htext, hrow, hheld⟩⟩
end NotionRelay
